import Mathlib

/-!
Shallow embedding of the oracle governance module of StellarSwipe
(`contracts/oracle/src/governance.rs`): the stake ledger, proposal store,
quorum/approval evaluator, proposal lifecycle controller and execution
dispatcher, together with theorems settling the specification claims.

Modelling conventions:
* Soroban `Address` values are opaque identifiers with decidable equality,
  modelled as `Nat`.
* `i128` quantities are modelled as `Int`, `u64` as `Nat` (no claim depends
  on machine-width overflow of these quantities).
* Durable storage is an explicit `GovState` record; association lists model
  the keyed persistent entries (`Proposal(id)`, `Stake(addr)`,
  `HasVoted(id, addr)`).
* Each public entry point is a function from a state (plus the ledger
  timestamp where the source reads the clock) to a result, a successor
  state, and the list of emitted events.  Returning `Except.error` carries
  the state as mutated so far, exactly as the direct (non-rollback) call
  semantics of the source, whose unit tests call these functions directly.
-/

set_option linter.unusedVariables false

/-- Addresses: opaque identifiers with decidable equality. -/
abbrev Addr := Nat

/-- `OracleError` from `errors.rs` (the `main`-branch variants, which are the
ones `governance.rs` uses). -/
inductive OracleError where
  | Unauthorized
  | OracleNotFound
  | InvalidPrice
  | OracleAlreadyExists
  | InsufficientOracles
  | LowReputation
deriving DecidableEq, Repr

/-- `ProposalType` from governance.rs. -/
inductive ProposalType where
  | AddOracle
  | RemoveOracle
  | UpdateParameter
  | EmergencyPause
deriving DecidableEq, Repr

/-- `ProposalStatus` from governance.rs. -/
inductive ProposalStatus where
  | Active
  | Failed
  | Executed
  | ExecutionFailed
  | Cancelled
deriving DecidableEq, Repr

/-- Reputation record written by `exec_add_oracle`.  The `types` module that
declares it is not present under `src/`; the field list is taken from the
record literal in `exec_add_oracle` (governance.rs lines 646-653). -/
structure OracleReputation where
  total_submissions : Nat
  accurate_submissions : Nat
  avg_deviation : Int
  reputation_score : Nat
  weight : Nat
  last_slash : Nat
deriving DecidableEq, Repr

/-- `OracleProposal` from governance.rs. -/
structure OracleProposal where
  id : Nat
  proposer : Addr
  proposal_type : ProposalType
  description : String
  votes_for : Int
  votes_against : Int
  voting_ends : Nat
  status : ProposalStatus
  execution_payload : List Nat
  deposit : Int
deriving DecidableEq, Repr

-- Governance constants (governance.rs lines 20-38).

def VOTING_PERIOD_SECONDS : Nat := 7 * 24 * 60 * 60

def EMERGENCY_VOTING_PERIOD_SECONDS : Nat := 24 * 60 * 60

def QUORUM_BPS : Int := 1000

def APPROVAL_THRESHOLD_BPS : Int := 6600

def EMERGENCY_THRESHOLD_BPS : Int := 8000

def PROPOSAL_DEPOSIT : Int := 1000 * 10000000

def MIN_ORACLES : Nat := 2

-- Event payload strings used by `emit_proposal_failed`.

def reason_execution_error : String := "execution_error"

def reason_expired : String := "expired_or_insufficient_votes"

/-- Events published by the module (`emit_*` helpers).  `depositResolved`
models the `(gov, deposit)` topic: the flag is `true` for a returned deposit
and `false` for a burned one. -/
inductive GovEvent where
  | proposed (id : Nat) (proposer : Addr) (ptype : ProposalType)
  | voteCast (id : Nat) (voter : Addr) (vote : Bool) (weight : Int)
  | executed (id : Nat)
  | failed (id : Nat) (reason : String)
  | cancelled (id : Nat)
  | stakeChanged (staker : Addr) (amount : Int) (total : Int)
  | depositResolved (who : Addr) (amount : Int) (returned : Bool)
  | oraclePaused (ts : Nat)
deriving DecidableEq, Repr

/-- The durable storage of the module: one field per `GovernanceKey` variant,
plus the oracle-module entries governance writes on execution
(`StorageKey::Oracles`, `StorageKey::OracleStats`, the three parameter
symbols and the `paused` flag). -/
structure GovState where
  proposal_counter : Nat
  proposals : List (Nat × OracleProposal)
  voted_pairs : List (Nat × Addr)
  total_staked : Int
  stakes : List (Addr × Int)
  gov_admin : Option Addr
  oracles : List Addr
  oracle_stats : Option (Addr × OracleReputation)
  param_min_oracles : Option Nat
  param_price_ttl : Option Nat
  param_max_deviation : Option Int
  paused : Bool
deriving DecidableEq, Repr

/-- The empty storage every fresh environment starts from. -/
def initState : GovState :=
  { proposal_counter := 0, proposals := [], voted_pairs := [], total_staked := 0,
    stakes := [], gov_admin := none, oracles := [], oracle_stats := none,
    param_min_oracles := none, param_price_ttl := none, param_max_deviation := none,
    paused := false }

-- Association-list model of keyed persistent storage.

/-- Keyed read: first matching entry. -/
def alookup {β : Type} : List (Nat × β) → Nat → Option β
  | [], _ => none
  | (k, v) :: rest, i => if k = i then some v else alookup rest i

/-- Keyed write: overwrite the matching entry, or append a fresh one. -/
def aset {β : Type} : List (Nat × β) → Nat → β → List (Nat × β)
  | [], i, v => [(i, v)]
  | (k, w) :: rest, i, v =>
    if k = i then (k, v) :: rest else (k, w) :: aset rest i v

/-- `get_stake`: stake balance of an address, defaulting to 0 (storage
`unwrap_or(0)`). -/
def get_stake_of (l : List (Addr × Int)) (a : Addr) : Int :=
  (alookup l a).getD 0

/-- Sum of all recorded stake balances (the StakeAccount amounts). -/
def sum_stakes : List (Addr × Int) → Int
  | [] => 0
  | (_, v) :: rest => v + sum_stakes rest

/-- The deposit of a proposal that has been locked but neither returned nor
unlocked: `Active` and `ExecutionFailed` deposits are held in escrow, and a
`Failed` proposal's deposit was burned without ever being subtracted from
`TotalStaked`. -/
def locked_amount (p : OracleProposal) : Int :=
  match p.status with
  | ProposalStatus.Active => p.deposit
  | ProposalStatus.ExecutionFailed => p.deposit
  | ProposalStatus.Failed => p.deposit
  | _ => 0

/-- Sum of `locked_amount` over the proposal store. -/
def outstanding_deposits : List (Nat × OracleProposal) → Int
  | [] => 0
  | (_, p) :: rest => locked_amount p + outstanding_deposits rest

-- Quorum & approval helpers (governance.rs lines 260-280).

/-- `is_quorum_reached`. -/
def is_quorum_reached (p : OracleProposal) (total_staked : Int) : Bool :=
  if total_staked = 0 then false
  else decide ((p.votes_for + p.votes_against) * 10000 ≥ QUORUM_BPS * total_staked)

/-- `is_approved`. -/
def is_approved (p : OracleProposal) : Bool :=
  if p.votes_for + p.votes_against = 0 then false
  else
    decide (p.votes_for * 10000 ≥
      (match p.proposal_type with
       | ProposalType.EmergencyPause => EMERGENCY_THRESHOLD_BPS
       | _ => APPROVAL_THRESHOLD_BPS) * (p.votes_for + p.votes_against))

-- Execution helpers (governance.rs lines 286-319).

/-- `decode_oracle_address`: the source is a placeholder that returns
`Err(OracleError::InvalidPrice)` for the empty payload and — via the
placeholder at line 297 — for every non-empty payload as well. -/
def decode_oracle_address (payload : List Nat) : Except OracleError Addr :=
  if payload.isEmpty then Except.error OracleError.InvalidPrice
  else Except.error OracleError.InvalidPrice

/-- Little-endian byte-list decoding (each element reduced mod 256, the u8
domain of `Vec<u8>`). -/
def le_bytes_to_nat : List Nat → Nat
  | [] => 0
  | b :: rest => b % 256 + 256 * le_bytes_to_nat rest

/-- `decode_parameter`: bytes 0..8 are a little-endian u64 key, bytes 8..24 a
little-endian two's-complement i128 value. -/
def decode_parameter (payload : List Nat) : Except OracleError (Nat × Int) :=
  if payload.length < 24 then Except.error OracleError.InvalidPrice
  else
    Except.ok (le_bytes_to_nat (payload.take 8),
      if le_bytes_to_nat ((payload.drop 8).take 16) < 2 ^ 127 then
        (le_bytes_to_nat ((payload.drop 8).take 16) : Int)
      else (le_bytes_to_nat ((payload.drop 8).take 16) : Int) - 2 ^ 128)

-- Concrete execution handlers (governance.rs lines 626-740).  Each returns
-- the updated storage and the events it emits, or the error it fails with;
-- in the source every error return precedes the first storage write, so an
-- error carries no state change.

/-- `exec_add_oracle`. -/
def exec_add_oracle (s : GovState) (p : OracleProposal) :
    Except OracleError (GovState × List GovEvent) :=
  match decode_oracle_address p.execution_payload with
  | Except.error e => Except.error e
  | Except.ok oracle =>
    if s.oracles.contains oracle then Except.error OracleError.OracleAlreadyExists
    else
      Except.ok ({ s with oracles := s.oracles ++ [oracle],
                          oracle_stats := some (oracle,
                            { total_submissions := 0, accurate_submissions := 0,
                              avg_deviation := 0, reputation_score := 50,
                              weight := 1, last_slash := 0 }) }, [])

/-- `exec_remove_oracle`. -/
def exec_remove_oracle (s : GovState) (p : OracleProposal) :
    Except OracleError (GovState × List GovEvent) :=
  match decode_oracle_address p.execution_payload with
  | Except.error e => Except.error e
  | Except.ok oracle =>
    if s.oracles.length ≤ MIN_ORACLES then Except.error OracleError.InsufficientOracles
    else Except.ok ({ s with oracles := s.oracles.filter (fun o => o != oracle) }, [])

/-- `exec_update_parameter`. -/
def exec_update_parameter (s : GovState) (p : OracleProposal) :
    Except OracleError (GovState × List GovEvent) :=
  match decode_parameter p.execution_payload with
  | Except.error e => Except.error e
  | Except.ok (param_key, new_value) =>
    match param_key with
    | 0 => Except.ok ({ s with param_min_oracles := some ((new_value.emod (2 ^ 32)).toNat) }, [])
    | 1 => Except.ok ({ s with param_price_ttl := some ((new_value.emod (2 ^ 64)).toNat) }, [])
    | 2 => Except.ok ({ s with param_max_deviation := some new_value }, [])
    | _ => Except.error OracleError.InvalidPrice

/-- `exec_emergency_pause`: always succeeds, records the paused flag and
publishes the pause event with the ledger timestamp. -/
def exec_emergency_pause (now : Nat) (s : GovState) (p : OracleProposal) :
    Except OracleError (GovState × List GovEvent) :=
  Except.ok ({ s with paused := true }, [GovEvent.oraclePaused now])

-- Internal execution (governance.rs lines 586-620).

/-- The `match proposal.proposal_type` dispatch at the top of
`execute_proposal`. -/
def dispatch_execution (now : Nat) (s : GovState) (p : OracleProposal) :
    Except OracleError (GovState × List GovEvent) :=
  match p.proposal_type with
  | ProposalType.AddOracle => exec_add_oracle s p
  | ProposalType.RemoveOracle => exec_remove_oracle s p
  | ProposalType.UpdateParameter => exec_update_parameter s p
  | ProposalType.EmergencyPause => exec_emergency_pause now s p

/-- `execute_proposal`: dispatch on the proposal type; on success set status
`Executed` and return the deposit to the proposer, on failure set status
`ExecutionFailed`; in both cases re-save the proposal. -/
def execute_proposal (now : Nat) (s : GovState) (p : OracleProposal) :
    GovState × OracleProposal × List GovEvent :=
  match dispatch_execution now s p with
  | Except.ok (s1, ev) =>
    ({ s1 with
        stakes := aset s1.stakes p.proposer (get_stake_of s1.stakes p.proposer + p.deposit),
        proposals := aset s1.proposals p.id { p with status := ProposalStatus.Executed } },
     { p with status := ProposalStatus.Executed },
     ev ++ [GovEvent.depositResolved p.proposer p.deposit true, GovEvent.executed p.id])
  | Except.error _ =>
    ({ s with proposals := aset s.proposals p.id { p with status := ProposalStatus.ExecutionFailed } },
     { p with status := ProposalStatus.ExecutionFailed },
     [GovEvent.failed p.id reason_execution_error])

/-- `finalise_expired_proposal`: mark the proposal `Failed` and burn its
deposit (no balance is credited). -/
def finalise_expired_proposal (s : GovState) (p : OracleProposal) :
    GovState × OracleProposal × List GovEvent :=
  ({ s with proposals := aset s.proposals p.id { p with status := ProposalStatus.Failed } },
   { p with status := ProposalStatus.Failed },
   [GovEvent.depositResolved p.proposer p.deposit false,
    GovEvent.failed p.id reason_expired])

-- Public governance entry points (governance.rs lines 337-557 and 747-758).
-- `require_auth` is the host authorization primitive: an auth failure aborts
-- the call before it runs, so the functions are modelled past that point.

/-- `deposit_stake`. -/
def deposit_stake (s : GovState) (staker : Addr) (amount : Int) :
    Except OracleError Unit × GovState × List GovEvent :=
  if amount ≤ 0 then (Except.error OracleError.InvalidPrice, s, [])
  else
    (Except.ok (),
     { s with stakes := aset s.stakes staker (get_stake_of s.stakes staker + amount),
              total_staked := s.total_staked + amount },
     [GovEvent.stakeChanged staker amount (s.total_staked + amount)])

/-- `withdraw_stake`. -/
def withdraw_stake (s : GovState) (staker : Addr) (amount : Int) :
    Except OracleError Unit × GovState × List GovEvent :=
  if amount ≤ 0 ∨ get_stake_of s.stakes staker < amount then
    (Except.error OracleError.InvalidPrice, s, [])
  else
    (Except.ok (),
     { s with stakes := aset s.stakes staker (get_stake_of s.stakes staker - amount),
              total_staked := max (s.total_staked - amount) 0 },
     [GovEvent.stakeChanged staker (-amount) (max (s.total_staked - amount) 0)])

/-- The voting window by proposal type (`create_proposal`'s `voting_period`
match). -/
def voting_window (ptype : ProposalType) : Nat :=
  match ptype with
  | ProposalType.EmergencyPause => EMERGENCY_VOTING_PERIOD_SECONDS
  | _ => VOTING_PERIOD_SECONDS

/-- The fresh `OracleProposal` record built by `create_proposal`. -/
def new_proposal (now : Nat) (id : Nat) (proposer : Addr) (ptype : ProposalType)
    (description : String) (execution_payload : List Nat) : OracleProposal :=
  { id := id, proposer := proposer, proposal_type := ptype,
    description := description, votes_for := 0, votes_against := 0,
    voting_ends := now + voting_window ptype, status := ProposalStatus.Active,
    execution_payload := execution_payload, deposit := PROPOSAL_DEPOSIT }

/-- `create_proposal`. -/
def create_proposal (now : Nat) (s : GovState) (proposer : Addr) (ptype : ProposalType)
    (description : String) (execution_payload : List Nat) :
    Except OracleError Nat × GovState × List GovEvent :=
  if get_stake_of s.stakes proposer < PROPOSAL_DEPOSIT then
    (Except.error OracleError.InsufficientOracles, s, [])
  else
    (Except.ok (s.proposal_counter + 1),
     { s with
        stakes := aset s.stakes proposer (get_stake_of s.stakes proposer - PROPOSAL_DEPOSIT),
        proposal_counter := s.proposal_counter + 1,
        proposals := aset s.proposals (s.proposal_counter + 1)
          (new_proposal now (s.proposal_counter + 1) proposer ptype description
            execution_payload) },
     [GovEvent.proposed (s.proposal_counter + 1) proposer ptype])

/-- `has_voted`. -/
def has_voted_in (s : GovState) (pid : Nat) (voter : Addr) : Bool :=
  s.voted_pairs.contains (pid, voter)

/-- The tally update on a ballot (`votes_for += weight` /
`votes_against += weight`). -/
def tally_proposal (p : OracleProposal) (vote : Bool) (weight : Int) : OracleProposal :=
  if vote then { p with votes_for := p.votes_for + weight }
  else { p with votes_against := p.votes_against + weight }

/-- The state after `mark_voted` and `save_proposal` inside
`vote_on_proposal`, before the eager-execution check. -/
def vote_mid_state (s : GovState) (proposal_id : Nat) (voter : Addr)
    (p1 : OracleProposal) : GovState :=
  { s with voted_pairs := (proposal_id, voter) :: s.voted_pairs,
           proposals := aset s.proposals p1.id p1 }

/-- `vote_on_proposal`.  The eager-execution check reads the total staked
after the saves, which the saves do not change, hence `s.total_staked`. -/
def vote_on_proposal (now : Nat) (s : GovState) (proposal_id : Nat) (voter : Addr)
    (vote : Bool) : Except OracleError Unit × GovState × List GovEvent :=
  match alookup s.proposals proposal_id with
  | none => (Except.error OracleError.OracleNotFound, s, [])
  | some p =>
    if p.status ≠ ProposalStatus.Active then (Except.error OracleError.InvalidPrice, s, [])
    else if p.voting_ends ≤ now then
      -- Lazily finalise the expired proposal, then return an error.
      (Except.error OracleError.InvalidPrice, (finalise_expired_proposal s p).1,
       (finalise_expired_proposal s p).2.2)
    else if has_voted_in s proposal_id voter then
      (Except.error OracleError.OracleAlreadyExists, s, [])
    else if get_stake_of s.stakes voter = 0 then
      (Except.error OracleError.LowReputation, s, [])
    else if is_quorum_reached (tally_proposal p vote (get_stake_of s.stakes voter))
              s.total_staked &&
            is_approved (tally_proposal p vote (get_stake_of s.stakes voter)) then
      (Except.ok (),
       (execute_proposal now
         (vote_mid_state s proposal_id voter
           (tally_proposal p vote (get_stake_of s.stakes voter)))
         (tally_proposal p vote (get_stake_of s.stakes voter))).1,
       GovEvent.voteCast proposal_id voter vote (get_stake_of s.stakes voter) ::
         (execute_proposal now
           (vote_mid_state s proposal_id voter
             (tally_proposal p vote (get_stake_of s.stakes voter)))
           (tally_proposal p vote (get_stake_of s.stakes voter))).2.2)
    else
      (Except.ok (),
       vote_mid_state s proposal_id voter
         (tally_proposal p vote (get_stake_of s.stakes voter)),
       [GovEvent.voteCast proposal_id voter vote (get_stake_of s.stakes voter)])

/-- `finalise_proposal`. -/
def finalise_proposal (now : Nat) (s : GovState) (proposal_id : Nat) :
    Except OracleError ProposalStatus × GovState × List GovEvent :=
  match alookup s.proposals proposal_id with
  | none => (Except.error OracleError.OracleNotFound, s, [])
  | some p =>
    if p.status ≠ ProposalStatus.Active then (Except.ok p.status, s, [])
    else if now < p.voting_ends then (Except.ok p.status, s, [])
    else if is_quorum_reached p s.total_staked && is_approved p then
      (Except.ok (execute_proposal now s p).2.1.status, (execute_proposal now s p).1,
       (execute_proposal now s p).2.2)
    else
      (Except.ok (finalise_expired_proposal s p).2.1.status,
       (finalise_expired_proposal s p).1, (finalise_expired_proposal s p).2.2)

/-- `retry_execution`. -/
def retry_execution (now : Nat) (s : GovState) (proposal_id : Nat) :
    Except OracleError Unit × GovState × List GovEvent :=
  match alookup s.proposals proposal_id with
  | none => (Except.error OracleError.OracleNotFound, s, [])
  | some p =>
    if p.status ≠ ProposalStatus.ExecutionFailed then
      (Except.error OracleError.InvalidPrice, s, [])
    else
      (Except.ok (), (execute_proposal now s p).1, (execute_proposal now s p).2.2)

/-- `cancel_proposal`. -/
def cancel_proposal (s : GovState) (admin : Addr) (proposal_id : Nat) :
    Except OracleError Unit × GovState × List GovEvent :=
  match s.gov_admin with
  | none => (Except.error OracleError.Unauthorized, s, [])
  | some stored_admin =>
    if admin ≠ stored_admin then (Except.error OracleError.Unauthorized, s, [])
    else
      match alookup s.proposals proposal_id with
      | none => (Except.error OracleError.OracleNotFound, s, [])
      | some p =>
        if p.status ≠ ProposalStatus.Active then
          (Except.error OracleError.InvalidPrice, s, [])
        else
          (Except.ok (),
           { s with
              stakes := aset s.stakes p.proposer (get_stake_of s.stakes p.proposer + p.deposit),
              proposals := aset s.proposals p.id { p with status := ProposalStatus.Cancelled } },
           [GovEvent.cancelled proposal_id])

/-- Models `initialize` from governance.rs: the source panics when the admin
is already set; the panic aborts the call with no state change, modelled as
an error result. -/
def init_admin (s : GovState) (admin : Addr) :
    Except OracleError Unit × GovState × List GovEvent :=
  match s.gov_admin with
  | some _ => (Except.error OracleError.Unauthorized, s, [])
  | none => (Except.ok (), { s with gov_admin := some admin }, [])

-- The public operations as a syntax of calls, to quantify over sequences.

/-- One public (state-mutating) call into the module, with the ledger
timestamp the host would supply where the source reads the clock. -/
inductive GovOp where
  | depositStake (staker : Addr) (amount : Int)
  | withdrawStake (staker : Addr) (amount : Int)
  | createProposal (now : Nat) (proposer : Addr) (ptype : ProposalType)
      (description : String) (payload : List Nat)
  | voteOnProposal (now : Nat) (proposal_id : Nat) (voter : Addr) (vote : Bool)
  | finaliseProposal (now : Nat) (proposal_id : Nat)
  | retryExecution (now : Nat) (proposal_id : Nat)
  | cancelProposal (admin : Addr) (proposal_id : Nat)
  | initAdmin (admin : Addr)
deriving DecidableEq, Repr

/-- Uniform return value of a public call. -/
inductive OpResult where
  | unit
  | propId (id : Nat)
  | propStatus (st : ProposalStatus)
deriving DecidableEq, Repr

/-- Run one public call. -/
def runOp (s : GovState) : GovOp → Except OracleError OpResult × GovState × List GovEvent
  | GovOp.depositStake a amt =>
    ((deposit_stake s a amt).1.map fun _ => OpResult.unit, (deposit_stake s a amt).2)
  | GovOp.withdrawStake a amt =>
    ((withdraw_stake s a amt).1.map fun _ => OpResult.unit, (withdraw_stake s a amt).2)
  | GovOp.createProposal now proposer ptype d payload =>
    ((create_proposal now s proposer ptype d payload).1.map fun i => OpResult.propId i,
     (create_proposal now s proposer ptype d payload).2)
  | GovOp.voteOnProposal now pid voter v =>
    ((vote_on_proposal now s pid voter v).1.map fun _ => OpResult.unit,
     (vote_on_proposal now s pid voter v).2)
  | GovOp.finaliseProposal now pid =>
    ((finalise_proposal now s pid).1.map fun st => OpResult.propStatus st,
     (finalise_proposal now s pid).2)
  | GovOp.retryExecution now pid =>
    ((retry_execution now s pid).1.map fun _ => OpResult.unit,
     (retry_execution now s pid).2)
  | GovOp.cancelProposal admin pid =>
    ((cancel_proposal s admin pid).1.map fun _ => OpResult.unit,
     (cancel_proposal s admin pid).2)
  | GovOp.initAdmin admin =>
    ((init_admin s admin).1.map fun _ => OpResult.unit, (init_admin s admin).2)

/-- Run a sequence of public calls from a given state, collecting the final
state and the concatenated event trace. -/
def runFrom (s : GovState) : List GovOp → GovState × List GovEvent
  | [] => (s, [])
  | op :: ops =>
    ((runFrom (runOp s op).2.1 ops).1,
     (runOp s op).2.2 ++ (runFrom (runOp s op).2.1 ops).2)

/-- Run a sequence of public calls from the empty storage. -/
def run (ops : List GovOp) : GovState × List GovEvent :=
  runFrom initState ops

/-! ## Basic lemmas about the storage model -/

theorem alookup_aset {β : Type} (l : List (Nat × β)) (i : Nat) (v : β) (j : Nat) :
    alookup (aset l i v) j = if j = i then some v else alookup l j := by
  induction l with
  | nil =>
    simp only [aset, alookup]
    by_cases hij : i = j
    · rw [if_pos hij, if_pos (by omega)]
    · rw [if_neg hij, if_neg (by omega)]
  | cons hd tl ih =>
    obtain ⟨k, w⟩ := hd
    by_cases hk : k = i
    · subst hk
      simp only [aset, eq_self_iff_true, if_true, alookup]
      by_cases hkj : k = j
      · rw [if_pos hkj, if_pos (by omega)]
      · rw [if_neg hkj, if_neg (by omega), if_neg hkj]
    · simp only [aset, if_neg hk, alookup, ih]
      by_cases hkj : k = j
      · rw [if_pos hkj, if_neg (by omega), if_pos hkj]
      · rw [if_neg hkj]
        by_cases hji : j = i
        · rw [if_pos hji, if_pos hji]
        · rw [if_neg hji, if_neg hji, if_neg hkj]

theorem mem_aset {β : Type} (l : List (Nat × β)) (i : Nat) (v : β) (x : Nat × β)
    (hx : x ∈ aset l i v) : x = (i, v) ∨ x ∈ l := by
  induction l with
  | nil =>
    simp only [aset, List.mem_singleton] at hx
    exact Or.inl hx
  | cons hd tl ih =>
    obtain ⟨k, w⟩ := hd
    by_cases hk : k = i
    · subst hk
      simp only [aset, eq_self_iff_true, if_true, List.mem_cons] at hx
      rcases hx with h | h
      · exact Or.inl h
      · exact Or.inr (List.mem_cons_of_mem _ h)
    · simp only [aset, if_neg hk, List.mem_cons] at hx
      rcases hx with h | h
      · exact Or.inr (by simp [h])
      · rcases ih h with h1 | h1
        · exact Or.inl h1
        · exact Or.inr (List.mem_cons_of_mem _ h1)

theorem alookup_mem {β : Type} (l : List (Nat × β)) (i : Nat) (v : β)
    (h : alookup l i = some v) : (i, v) ∈ l := by
  induction l with
  | nil => simp [alookup] at h
  | cons hd tl ih =>
    obtain ⟨k, w⟩ := hd
    by_cases hk : k = i
    · subst hk
      simp only [alookup, eq_self_iff_true, if_true, Option.some.injEq] at h
      simp [h]
    · simp only [alookup, if_neg hk] at h
      exact List.mem_cons_of_mem _ (ih h)

theorem alookup_none_of_big {β : Type} (l : List (Nat × β)) (n : Nat)
    (h : ∀ x ∈ l, x.1 ≤ n) : alookup l (n + 1) = none := by
  induction l with
  | nil => rfl
  | cons hd tl ih =>
    obtain ⟨k, w⟩ := hd
    have hk : k ≤ n := h (k, w) (List.mem_cons_self _ _)
    have hne : k ≠ n + 1 := by omega
    simp only [alookup, if_neg hne]
    exact ih fun x hx => h x (List.mem_cons_of_mem _ hx)

theorem sum_stakes_aset (l : List (Addr × Int)) (a : Addr) (v : Int) :
    sum_stakes (aset l a v) = sum_stakes l - get_stake_of l a + v := by
  induction l with
  | nil =>
    simp only [aset, sum_stakes, get_stake_of, alookup, Option.getD_none]
    ring
  | cons hd tl ih =>
    obtain ⟨k, w⟩ := hd
    by_cases hk : k = a
    · subst hk
      simp only [aset, eq_self_iff_true, if_true, sum_stakes, get_stake_of, alookup,
        Option.getD_some]
      ring
    · have hg : get_stake_of ((k, w) :: tl) a = get_stake_of tl a := by
        simp [get_stake_of, alookup, hk]
      simp only [aset, if_neg hk, sum_stakes, ih, hg]
      ring

theorem get_stake_of_aset_self (l : List (Addr × Int)) (a : Addr) (v : Int) :
    get_stake_of (aset l a v) a = v := by
  simp [get_stake_of, alookup_aset]

theorem get_stake_of_aset_other (l : List (Addr × Int)) (a : Addr) (v : Int) (b : Addr)
    (hb : b ≠ a) : get_stake_of (aset l a v) b = get_stake_of l b := by
  simp [get_stake_of, alookup_aset, hb]

theorem get_stake_of_nonneg (l : List (Addr × Int)) (a : Addr)
    (h : ∀ x ∈ l, 0 ≤ x.2) : 0 ≤ get_stake_of l a := by
  induction l with
  | nil => simp [get_stake_of, alookup]
  | cons hd tl ih =>
    obtain ⟨k, w⟩ := hd
    by_cases hk : k = a
    · have h1 : 0 ≤ w := h (k, w) (List.mem_cons_self _ _)
      simp only [get_stake_of, alookup, if_pos hk, Option.getD_some]
      exact h1
    · simp only [get_stake_of, alookup, if_neg hk]
      exact ih fun x hx => h x (List.mem_cons_of_mem _ hx)

theorem sum_stakes_nonneg (l : List (Addr × Int))
    (h : ∀ x ∈ l, 0 ≤ x.2) : 0 ≤ sum_stakes l := by
  induction l with
  | nil => simp [sum_stakes]
  | cons hd tl ih =>
    obtain ⟨k, w⟩ := hd
    have h1 : 0 ≤ w := h (k, w) (List.mem_cons_self _ _)
    have h2 := ih fun x hx => h x (List.mem_cons_of_mem _ hx)
    simp only [sum_stakes]
    omega

theorem get_stake_of_le_sum (l : List (Addr × Int)) (a : Addr)
    (h : ∀ x ∈ l, 0 ≤ x.2) : get_stake_of l a ≤ sum_stakes l := by
  induction l with
  | nil => simp [get_stake_of, alookup, sum_stakes]
  | cons hd tl ih =>
    obtain ⟨k, w⟩ := hd
    have h1 : 0 ≤ w := h (k, w) (List.mem_cons_self _ _)
    have htl : ∀ x ∈ tl, 0 ≤ x.2 := fun x hx => h x (List.mem_cons_of_mem _ hx)
    have h2 := ih htl
    have h3 := sum_stakes_nonneg tl htl
    have h4 := get_stake_of_nonneg tl a htl
    by_cases hk : k = a
    · have hval : get_stake_of ((k, w) :: tl) a = w := by
        simp [get_stake_of, alookup, hk]
      rw [hval]
      simp only [sum_stakes]
      omega
    · have hval : get_stake_of ((k, w) :: tl) a = get_stake_of tl a := by
        simp [get_stake_of, alookup, hk]
      rw [hval]
      simp only [sum_stakes]
      omega

theorem outstanding_aset (l : List (Nat × OracleProposal)) (i : Nat) (p : OracleProposal) :
    outstanding_deposits (aset l i p) =
      outstanding_deposits l - (alookup l i).elim 0 locked_amount + locked_amount p := by
  induction l with
  | nil =>
    simp only [aset, outstanding_deposits, alookup, Option.elim_none]
    ring
  | cons hd tl ih =>
    obtain ⟨k, q⟩ := hd
    by_cases hk : k = i
    · subst hk
      simp only [aset, eq_self_iff_true, if_true, outstanding_deposits, alookup,
        Option.elim_some]
      ring
    · simp only [aset, if_neg hk, outstanding_deposits, alookup, if_neg hk, ih]
      ring

theorem outstanding_nonneg (l : List (Nat × OracleProposal))
    (h : ∀ x ∈ l, 0 ≤ x.2.deposit) : 0 ≤ outstanding_deposits l := by
  induction l with
  | nil => simp [outstanding_deposits]
  | cons hd tl ih =>
    obtain ⟨k, q⟩ := hd
    have h1 : 0 ≤ q.deposit := h (k, q) (List.mem_cons_self _ _)
    have h2 := ih fun x hx => h x (List.mem_cons_of_mem _ hx)
    have h3 : 0 ≤ locked_amount q := by
      unfold locked_amount
      split <;> simp [h1]
    simp only [outstanding_deposits]
    omega

/-! ## Lemmas about the execution dispatcher -/

theorem decode_oracle_address_err (payload : List Nat) :
    decode_oracle_address payload = Except.error OracleError.InvalidPrice := by
  simp [decode_oracle_address]

theorem exec_add_oracle_err (s : GovState) (p : OracleProposal) :
    exec_add_oracle s p = Except.error OracleError.InvalidPrice := by
  simp [exec_add_oracle, decode_oracle_address_err]

theorem exec_remove_oracle_err (s : GovState) (p : OracleProposal) :
    exec_remove_oracle s p = Except.error OracleError.InvalidPrice := by
  simp [exec_remove_oracle, decode_oracle_address_err]

theorem dispatch_frame (now : Nat) (s : GovState) (p : OracleProposal) (s1 : GovState)
    (ev : List GovEvent) (h : dispatch_execution now s p = Except.ok (s1, ev)) :
    s1.proposal_counter = s.proposal_counter ∧ s1.proposals = s.proposals ∧
    s1.voted_pairs = s.voted_pairs ∧ s1.total_staked = s.total_staked ∧
    s1.stakes = s.stakes ∧ s1.gov_admin = s.gov_admin := by
  unfold dispatch_execution at h
  rcases hty : p.proposal_type with _ | _ | _ | _ <;> rw [hty] at h
  · rw [exec_add_oracle_err] at h
    cases h
  · rw [exec_remove_oracle_err] at h
    cases h
  · unfold exec_update_parameter at h
    rcases hdec : decode_parameter p.execution_payload with e | kv
    · rw [hdec] at h
      cases h
    · obtain ⟨key, val⟩ := kv
      rw [hdec] at h
      match key, h with
      | 0, h =>
        simp only [Except.ok.injEq, Prod.mk.injEq] at h
        obtain ⟨h1, _⟩ := h
        subst h1
        simp
      | 1, h =>
        simp only [Except.ok.injEq, Prod.mk.injEq] at h
        obtain ⟨h1, _⟩ := h
        subst h1
        simp
      | 2, h =>
        simp only [Except.ok.injEq, Prod.mk.injEq] at h
        obtain ⟨h1, _⟩ := h
        subst h1
        simp
      | (n + 3), h => cases h
  · unfold exec_emergency_pause at h
    simp only [Except.ok.injEq, Prod.mk.injEq] at h
    obtain ⟨h1, _⟩ := h
    subst h1
    simp

theorem execute_ok_eq (now : Nat) (s : GovState) (p : OracleProposal) (s1 : GovState)
    (ev : List GovEvent) (h : dispatch_execution now s p = Except.ok (s1, ev)) :
    execute_proposal now s p =
      ({ s1 with
          stakes := aset s1.stakes p.proposer (get_stake_of s1.stakes p.proposer + p.deposit),
          proposals := aset s1.proposals p.id { p with status := ProposalStatus.Executed } },
       { p with status := ProposalStatus.Executed },
       ev ++ [GovEvent.depositResolved p.proposer p.deposit true, GovEvent.executed p.id]) := by
  unfold execute_proposal
  rw [h]

theorem execute_err_eq (now : Nat) (s : GovState) (p : OracleProposal) (e : OracleError)
    (h : dispatch_execution now s p = Except.error e) :
    execute_proposal now s p =
      ({ s with proposals := aset s.proposals p.id { p with status := ProposalStatus.ExecutionFailed } },
       { p with status := ProposalStatus.ExecutionFailed },
       [GovEvent.failed p.id reason_execution_error]) := by
  unfold execute_proposal
  rw [h]

theorem dispatch_addremove_err (now : Nat) (s : GovState) (p : OracleProposal)
    (hty : p.proposal_type = ProposalType.AddOracle ∨
           p.proposal_type = ProposalType.RemoveOracle) :
    dispatch_execution now s p = Except.error OracleError.InvalidPrice := by
  rcases hty with h | h <;>
    simp [dispatch_execution, h, exec_add_oracle_err, exec_remove_oracle_err]

theorem execute_status_cases (now : Nat) (s : GovState) (p : OracleProposal) :
    (execute_proposal now s p).2.1.status = ProposalStatus.Executed ∨
    (execute_proposal now s p).2.1.status = ProposalStatus.ExecutionFailed := by
  rcases h : dispatch_execution now s p with e | ⟨s1, ev⟩
  · rw [execute_err_eq now s p e h]
    right
    rfl
  · rw [execute_ok_eq now s p s1 ev h]
    left
    rfl

/-! ## The state invariant

`StateInv` bundles the facts preserved by every public operation:
proposals are stored under their own id, ids never exceed the counter,
deposits and stake balances are non-negative, `AddOracle`/`RemoveOracle`
proposals are never `Executed` (their dispatch always fails), and
`TotalStaked` equals the sum of all stake balances plus the deposits that
were locked and never credited back (those of `Active`, `ExecutionFailed`
and `Failed` proposals). -/
def StateInv (s : GovState) : Prop :=
  (∀ x ∈ s.proposals, x.2.id = x.1) ∧
  (∀ x ∈ s.proposals, x.1 ≤ s.proposal_counter) ∧
  (∀ x ∈ s.proposals, 0 ≤ x.2.deposit) ∧
  (∀ x ∈ s.proposals,
     (x.2.proposal_type = ProposalType.AddOracle ∨
      x.2.proposal_type = ProposalType.RemoveOracle) →
     x.2.status ≠ ProposalStatus.Executed) ∧
  (∀ x ∈ s.stakes, 0 ≤ x.2) ∧
  s.total_staked = sum_stakes s.stakes + outstanding_deposits s.proposals

theorem stateInv_init : StateInv initState := by
  refine ⟨?_, ?_, ?_, ?_, ?_, ?_⟩ <;> simp [initState, sum_stakes, outstanding_deposits]

theorem locked_amount_eq_deposit (p : OracleProposal)
    (h : p.status = ProposalStatus.Active ∨ p.status = ProposalStatus.ExecutionFailed ∨
         p.status = ProposalStatus.Failed) :
    locked_amount p = p.deposit := by
  rcases h with h | h | h <;> simp [locked_amount, h]

theorem stateInv_execute (now : Nat) (s : GovState) (p : OracleProposal)
    (hI : StateInv s) (hp : alookup s.proposals p.id = some p)
    (hst : p.status = ProposalStatus.Active ∨ p.status = ProposalStatus.ExecutionFailed) :
    StateInv (execute_proposal now s p).1 := by
  obtain ⟨hkey, hctr, hdep, hty, hstk, htot⟩ := hI
  have hmem : (p.id, p) ∈ s.proposals := alookup_mem _ _ _ hp
  have hdp : 0 ≤ p.deposit := hdep _ hmem
  have hlock : locked_amount p = p.deposit :=
    locked_amount_eq_deposit p (by tauto)
  rcases h : dispatch_execution now s p with e | ⟨s1, ev⟩
  · -- execution failed: proposal re-saved with status ExecutionFailed
    rw [execute_err_eq now s p e h]
    refine ⟨?_, ?_, ?_, ?_, hstk, ?_⟩
    · intro x hx
      rcases mem_aset _ _ _ _ hx with h1 | h1
      · rw [h1]
      · exact hkey x h1
    · intro x hx
      rcases mem_aset _ _ _ _ hx with h1 | h1
      · rw [h1]
        exact hctr (p.id, p) hmem
      · exact hctr x h1
    · intro x hx
      rcases mem_aset _ _ _ _ hx with h1 | h1
      · rw [h1]
        exact hdp
      · exact hdep x h1
    · intro x hx
      rcases mem_aset _ _ _ _ hx with h1 | h1
      · rw [h1]
        intro _
        simp
      · exact hty x h1
    · show s.total_staked = _
      rw [outstanding_aset, hp, htot]
      simp only [Option.elim_some, hlock]
      have : locked_amount { p with status := ProposalStatus.ExecutionFailed } = p.deposit := by
        simp [locked_amount]
      rw [this]
      ring
  · -- execution succeeded: deposit credited back, status Executed
    obtain ⟨hf1, hf2, hf3, hf4, hf5, hf6⟩ := dispatch_frame now s p s1 ev h
    have htyok : ¬(p.proposal_type = ProposalType.AddOracle ∨
                   p.proposal_type = ProposalType.RemoveOracle) := by
      intro hc
      rw [dispatch_addremove_err now s p hc] at h
      cases h
    rw [execute_ok_eq now s p s1 ev h]
    refine ⟨?_, ?_, ?_, ?_, ?_, ?_⟩
    · intro x hx
      simp only at hx
      rw [hf2] at hx
      rcases mem_aset _ _ _ _ hx with h1 | h1
      · rw [h1]
      · exact hkey x h1
    · intro x hx
      simp only at hx ⊢
      rw [hf2] at hx
      rw [hf1]
      rcases mem_aset _ _ _ _ hx with h1 | h1
      · rw [h1]
        exact hctr (p.id, p) hmem
      · exact hctr x h1
    · intro x hx
      simp only at hx
      rw [hf2] at hx
      rcases mem_aset _ _ _ _ hx with h1 | h1
      · rw [h1]
        exact hdp
      · exact hdep x h1
    · intro x hx
      simp only at hx
      rw [hf2] at hx
      rcases mem_aset _ _ _ _ hx with h1 | h1
      · rw [h1]
        intro hc
        exact absurd hc htyok
      · exact hty x h1
    · intro x hx
      simp only at hx
      rw [hf5] at hx
      rcases mem_aset _ _ _ _ hx with h1 | h1
      · rw [h1]
        have := get_stake_of_nonneg s.stakes p.proposer hstk
        simp only
        omega
      · exact hstk x h1
    · show s1.total_staked = _
      simp only
      rw [hf2, hf4, hf5, sum_stakes_aset, outstanding_aset, hp, htot]
      simp only [Option.elim_some, hlock]
      have : locked_amount { p with status := ProposalStatus.Executed } = 0 := by
        simp [locked_amount]
      rw [this]
      ring

theorem stateInv_finalise_expired (s : GovState) (p : OracleProposal)
    (hI : StateInv s) (hp : alookup s.proposals p.id = some p)
    (hst : p.status = ProposalStatus.Active) :
    StateInv (finalise_expired_proposal s p).1 := by
  obtain ⟨hkey, hctr, hdep, hty, hstk, htot⟩ := hI
  have hmem : (p.id, p) ∈ s.proposals := alookup_mem _ _ _ hp
  have hdp : 0 ≤ p.deposit := hdep _ hmem
  have hlock : locked_amount p = p.deposit :=
    locked_amount_eq_deposit p (Or.inl hst)
  unfold finalise_expired_proposal
  refine ⟨?_, ?_, ?_, ?_, hstk, ?_⟩
  · intro x hx
    rcases mem_aset _ _ _ _ hx with h1 | h1
    · rw [h1]
    · exact hkey x h1
  · intro x hx
    rcases mem_aset _ _ _ _ hx with h1 | h1
    · rw [h1]
      exact hctr (p.id, p) hmem
    · exact hctr x h1
  · intro x hx
    rcases mem_aset _ _ _ _ hx with h1 | h1
    · rw [h1]
      exact hdp
    · exact hdep x h1
  · intro x hx
    rcases mem_aset _ _ _ _ hx with h1 | h1
    · rw [h1]
      intro _
      simp
    · exact hty x h1
  · show s.total_staked = _
    rw [outstanding_aset, hp, htot]
    simp only [Option.elim_some, hlock]
    have : locked_amount { p with status := ProposalStatus.Failed } = p.deposit := by
      simp [locked_amount]
    rw [this]
    ring

theorem locked_congr (p q : OracleProposal) (hst : q.status = p.status)
    (hdep : q.deposit = p.deposit) : locked_amount q = locked_amount p := by
  unfold locked_amount
  rw [hst, hdep]

theorem stateInv_vote_save (s : GovState) (pid : Nat) (voter : Addr)
    (p q : OracleProposal) (hI : StateInv s) (hp : alookup s.proposals pid = some p)
    (hid : q.id = pid) (hdepq : q.deposit = p.deposit)
    (htyq : q.proposal_type = p.proposal_type) (hstq : q.status = p.status) :
    StateInv (vote_mid_state s pid voter q) := by
  unfold vote_mid_state
  obtain ⟨hkey, hctr, hdep, hty, hstk, htot⟩ := hI
  have hmem : (pid, p) ∈ s.proposals := alookup_mem _ _ _ hp
  refine ⟨?_, ?_, ?_, ?_, hstk, ?_⟩
  · intro x hx
    rcases mem_aset _ _ _ _ hx with h1 | h1
    · rw [h1]
    · exact hkey x h1
  · intro x hx
    simp only at hx ⊢
    rcases mem_aset _ _ _ _ hx with h1 | h1
    · rw [h1]
      simp only [hid]
      exact hctr (pid, p) hmem
    · exact hctr x h1
  · intro x hx
    rcases mem_aset _ _ _ _ hx with h1 | h1
    · rw [h1]
      simp only [hdepq]
      exact hdep (pid, p) hmem
    · exact hdep x h1
  · intro x hx
    rcases mem_aset _ _ _ _ hx with h1 | h1
    · rw [h1]
      simp only [htyq, hstq]
      exact hty (pid, p) hmem
    · exact hty x h1
  · show s.total_staked = _
    simp only
    rw [outstanding_aset, hid, hp, htot]
    simp only [Option.elim_some]
    rw [locked_congr p q hstq hdepq]
    ring

theorem stateInv_deposit (s : GovState) (staker : Addr) (amount : Int)
    (hI : StateInv s) : StateInv (deposit_stake s staker amount).2.1 := by
  unfold deposit_stake
  split
  · exact hI
  next hneg =>
    obtain ⟨hkey, hctr, hdep, hty, hstk, htot⟩ := hI
    refine ⟨hkey, hctr, hdep, hty, ?_, ?_⟩
    · intro x hx
      simp only at hx
      rcases mem_aset _ _ _ _ hx with h1 | h1
      · rw [h1]
        have := get_stake_of_nonneg s.stakes staker hstk
        simp only
        omega
      · exact hstk x h1
    · show s.total_staked + amount = _
      simp only
      rw [sum_stakes_aset, htot]
      ring

theorem stateInv_withdraw (s : GovState) (staker : Addr) (amount : Int)
    (hI : StateInv s) : StateInv (withdraw_stake s staker amount).2.1 := by
  unfold withdraw_stake
  split
  · exact hI
  next hneg =>
    obtain ⟨hkey, hctr, hdep, hty, hstk, htot⟩ := hI
    push_neg at hneg
    obtain ⟨hpos, hle⟩ := hneg
    refine ⟨hkey, hctr, hdep, hty, ?_, ?_⟩
    · intro x hx
      simp only at hx
      rcases mem_aset _ _ _ _ hx with h1 | h1
      · rw [h1]
        simp only
        omega
      · exact hstk x h1
    · have hsum := get_stake_of_le_sum s.stakes staker hstk
      have hout := outstanding_nonneg s.proposals hdep
      have hmax : max (s.total_staked - amount) 0 = s.total_staked - amount := by
        omega
      show max (s.total_staked - amount) 0 = _
      simp only
      rw [hmax, sum_stakes_aset, htot]
      ring

theorem stateInv_create (now : Nat) (s : GovState) (proposer : Addr)
    (ptype : ProposalType) (d : String) (payload : List Nat) (hI : StateInv s) :
    StateInv (create_proposal now s proposer ptype d payload).2.1 := by
  simp only [create_proposal]
  split
  · exact hI
  next hge =>
    push_neg at hge
    obtain ⟨hkey, hctr, hdep, hty, hstk, htot⟩ := hI
    have hfresh : alookup s.proposals (s.proposal_counter + 1) = none :=
      alookup_none_of_big s.proposals s.proposal_counter hctr
    refine ⟨?_, ?_, ?_, ?_, ?_, ?_⟩
    · intro x hx
      simp only at hx
      rcases mem_aset _ _ _ _ hx with h1 | h1
      · rw [h1]
        simp [new_proposal]
      · exact hkey x h1
    · intro x hx
      simp only at hx ⊢
      rcases mem_aset _ _ _ _ hx with h1 | h1
      · rw [h1]
      · exact Nat.le_succ_of_le (hctr x h1)
    · intro x hx
      simp only at hx
      rcases mem_aset _ _ _ _ hx with h1 | h1
      · rw [h1]
        show (0 : Int) ≤ PROPOSAL_DEPOSIT
        unfold PROPOSAL_DEPOSIT
        norm_num
      · exact hdep x h1
    · intro x hx
      simp only at hx
      rcases mem_aset _ _ _ _ hx with h1 | h1
      · rw [h1]
        intro _
        simp [new_proposal]
      · exact hty x h1
    · intro x hx
      simp only at hx
      rcases mem_aset _ _ _ _ hx with h1 | h1
      · rw [h1]
        simp only
        omega
      · exact hstk x h1
    · show s.total_staked = _
      simp only
      rw [sum_stakes_aset, outstanding_aset, hfresh, htot]
      simp only [Option.elim_none, locked_amount, new_proposal]
      ring

theorem stateInv_cancel (s : GovState) (admin : Addr) (pid : Nat)
    (hI : StateInv s) : StateInv (cancel_proposal s admin pid).2.1 := by
  unfold cancel_proposal
  rcases s.gov_admin with _ | stored
  · exact hI
  · simp only
    split
    · exact hI
    rcases hp : alookup s.proposals pid with _ | p
    · exact hI
    simp only
    split
    · exact hI
    next hA =>
      push_neg at hA
      obtain ⟨hkey, hctr, hdep, hty, hstk, htot⟩ := hI
      have hmem : (pid, p) ∈ s.proposals := alookup_mem _ _ _ hp
      have hdp : 0 ≤ p.deposit := hdep (pid, p) hmem
      have hpid : p.id = pid := hkey (pid, p) hmem
      refine ⟨?_, ?_, ?_, ?_, ?_, ?_⟩
      · intro x hx
        simp only at hx
        rcases mem_aset _ _ _ _ hx with h1 | h1
        · rw [h1]
        · exact hkey x h1
      · intro x hx
        simp only at hx ⊢
        rcases mem_aset _ _ _ _ hx with h1 | h1
        · rw [h1]
          show p.id ≤ s.proposal_counter
          rw [hpid]
          exact hctr (pid, p) hmem
        · exact hctr x h1
      · intro x hx
        simp only at hx
        rcases mem_aset _ _ _ _ hx with h1 | h1
        · rw [h1]
          exact hdp
        · exact hdep x h1
      · intro x hx
        simp only at hx
        rcases mem_aset _ _ _ _ hx with h1 | h1
        · rw [h1]
          intro _
          simp
        · exact hty x h1
      · intro x hx
        simp only at hx
        rcases mem_aset _ _ _ _ hx with h1 | h1
        · rw [h1]
          have := get_stake_of_nonneg s.stakes p.proposer hstk
          simp only
          omega
        · exact hstk x h1
      · show s.total_staked = _
        simp only
        rw [sum_stakes_aset, outstanding_aset, hpid, hp, htot]
        simp only [Option.elim_some]
        rw [locked_amount_eq_deposit p (Or.inl hA)]
        simp only [locked_amount]
        ring

theorem stateInv_init_admin (s : GovState) (admin : Addr) (hI : StateInv s) :
    StateInv (init_admin s admin).2.1 := by
  unfold init_admin
  rcases s.gov_admin with _ | stored
  · exact hI
  · exact hI

theorem tally_id (p : OracleProposal) (v : Bool) (w : Int) :
    (tally_proposal p v w).id = p.id := by
  unfold tally_proposal
  split <;> rfl

theorem tally_deposit (p : OracleProposal) (v : Bool) (w : Int) :
    (tally_proposal p v w).deposit = p.deposit := by
  unfold tally_proposal
  split <;> rfl

theorem tally_type (p : OracleProposal) (v : Bool) (w : Int) :
    (tally_proposal p v w).proposal_type = p.proposal_type := by
  unfold tally_proposal
  split <;> rfl

theorem tally_status (p : OracleProposal) (v : Bool) (w : Int) :
    (tally_proposal p v w).status = p.status := by
  unfold tally_proposal
  split <;> rfl

theorem tally_proposer (p : OracleProposal) (v : Bool) (w : Int) :
    (tally_proposal p v w).proposer = p.proposer := by
  unfold tally_proposal
  split <;> rfl

theorem tally_ends (p : OracleProposal) (v : Bool) (w : Int) :
    (tally_proposal p v w).voting_ends = p.voting_ends := by
  unfold tally_proposal
  split <;> rfl

theorem alookup_mid_state (s : GovState) (pid : Nat) (voter : Addr)
    (q : OracleProposal) :
    alookup (vote_mid_state s pid voter q).proposals q.id = some q := by
  simp [vote_mid_state, alookup_aset]

theorem stateInv_vote (now : Nat) (s : GovState) (pid : Nat) (voter : Addr) (v : Bool)
    (hI : StateInv s) : StateInv (vote_on_proposal now s pid voter v).2.1 := by
  unfold vote_on_proposal
  rcases hp : alookup s.proposals pid with _ | p
  · exact hI
  have hpid : p.id = pid := hI.1 (pid, p) (alookup_mem _ _ _ hp)
  simp only
  split
  · exact hI
  next hA =>
    push_neg at hA
    split
    next hexp =>
      exact stateInv_finalise_expired s p hI (by rw [hpid]; exact hp) hA
    next hexp =>
      split
      · exact hI
      split
      · exact hI
      next hw =>
        have hsave : StateInv
            (vote_mid_state s pid voter (tally_proposal p v (get_stake_of s.stakes voter))) :=
          stateInv_vote_save s pid voter p _ hI hp
            (by rw [tally_id, hpid]) (tally_deposit p v _) (tally_type p v _)
            (tally_status p v _)
        split
        · exact stateInv_execute now _ _ hsave
            (alookup_mid_state s pid voter _)
            (Or.inl (by rw [tally_status]; exact hA))
        · exact hsave

theorem stateInv_finalise (now : Nat) (s : GovState) (pid : Nat)
    (hI : StateInv s) : StateInv (finalise_proposal now s pid).2.1 := by
  unfold finalise_proposal
  rcases hp : alookup s.proposals pid with _ | p
  · exact hI
  have hpid : p.id = pid := hI.1 (pid, p) (alookup_mem _ _ _ hp)
  simp only
  split
  · exact hI
  next hA =>
    push_neg at hA
    split
    · exact hI
    split
    · exact stateInv_execute now s p hI (by rw [hpid]; exact hp) (Or.inl hA)
    · exact stateInv_finalise_expired s p hI (by rw [hpid]; exact hp) hA

theorem stateInv_retry (now : Nat) (s : GovState) (pid : Nat)
    (hI : StateInv s) : StateInv (retry_execution now s pid).2.1 := by
  unfold retry_execution
  rcases hp : alookup s.proposals pid with _ | p
  · exact hI
  have hpid : p.id = pid := hI.1 (pid, p) (alookup_mem _ _ _ hp)
  simp only
  split
  · exact hI
  next hE =>
    push_neg at hE
    exact stateInv_execute now s p hI (by rw [hpid]; exact hp) (Or.inr hE)

theorem stateInv_runOp (s : GovState) (op : GovOp) (hI : StateInv s) :
    StateInv (runOp s op).2.1 := by
  cases op with
  | depositStake a amt => exact stateInv_deposit s a amt hI
  | withdrawStake a amt => exact stateInv_withdraw s a amt hI
  | createProposal now proposer ptype d payload =>
    exact stateInv_create now s proposer ptype d payload hI
  | voteOnProposal now pid voter v => exact stateInv_vote now s pid voter v hI
  | finaliseProposal now pid => exact stateInv_finalise now s pid hI
  | retryExecution now pid => exact stateInv_retry now s pid hI
  | cancelProposal admin pid => exact stateInv_cancel s admin pid hI
  | initAdmin admin => exact stateInv_init_admin s admin hI

theorem stateInv_runFrom (s : GovState) (ops : List GovOp) (hI : StateInv s) :
    StateInv (runFrom s ops).1 := by
  induction ops generalizing s with
  | nil => exact hI
  | cons op ops ih =>
    exact ih (runOp s op).2.1 (stateInv_runOp s op hI)

theorem stateInv_run (ops : List GovOp) : StateInv (run ops).1 :=
  stateInv_runFrom initState ops stateInv_init

/-! ## Deposit-accounting trace invariant

A deposit return is witnessed in the event trace by an `executed` or
`cancelled` event for the proposal (each is emitted exactly when the deposit
is credited back to the proposer's stake), and a burn by a `failed` event
with the `expired_or_insufficient_votes` reason (emitted exactly by
`finalise_expired_proposal`, which never credits the deposit). -/

/-- Events that coincide with crediting the proposal's deposit back. -/
def is_ret_event (id : Nat) : GovEvent → Bool
  | GovEvent.executed j => j == id
  | GovEvent.cancelled j => j == id
  | _ => false

/-- Events that coincide with burning the proposal's deposit. -/
def is_burn_event (id : Nat) : GovEvent → Bool
  | GovEvent.failed j r => j == id && r == reason_expired
  | _ => false

/-- Number of deposit returns recorded for proposal `id`. -/
def ret_count (id : Nat) (tr : List GovEvent) : Nat :=
  tr.countP (is_ret_event id)

/-- Number of deposit burns recorded for proposal `id`. -/
def burn_count (id : Nat) (tr : List GovEvent) : Nat :=
  tr.countP (is_burn_event id)

/-- The exactly-once accounting discipline per proposal: terminal
`Executed`/`Cancelled` proposals have exactly one return and no burn;
terminal `Failed` proposals exactly one burn and no return; open
(`Active`/`ExecutionFailed`) or unknown proposals have neither. -/
def dep_ok : Option OracleProposal → Nat → Nat → Prop
  | none, r, b => r = 0 ∧ b = 0
  | some p, r, b =>
    match p.status with
    | ProposalStatus.Active => r = 0 ∧ b = 0
    | ProposalStatus.ExecutionFailed => r = 0 ∧ b = 0
    | ProposalStatus.Executed => r = 1 ∧ b = 0
    | ProposalStatus.Cancelled => r = 1 ∧ b = 0
    | ProposalStatus.Failed => r = 0 ∧ b = 1

def DepositTraceInv (s : GovState) (tr : List GovEvent) : Prop :=
  ∀ id, dep_ok (alookup s.proposals id) (ret_count id tr) (burn_count id tr)

theorem ret_count_append (id : Nat) (tr ev : List GovEvent) :
    ret_count id (tr ++ ev) = ret_count id tr + ret_count id ev :=
  List.countP_append _ _ _

theorem burn_count_append (id : Nat) (tr ev : List GovEvent) :
    burn_count id (tr ++ ev) = burn_count id tr + burn_count id ev :=
  List.countP_append _ _ _

theorem dep_ok_congr (p q : OracleProposal) (h : q.status = p.status) (r b : Nat)
    (hd : dep_ok (some p) r b) : dep_ok (some q) r b := by
  simp only [dep_ok] at hd ⊢
  rw [h]
  exact hd

theorem depInv_frame (s s' : GovState) (tr ev : List GovEvent)
    (hD : DepositTraceInv s tr) (hprop : s'.proposals = s.proposals)
    (hev : ∀ id, ret_count id ev = 0 ∧ burn_count id ev = 0) :
    DepositTraceInv s' (tr ++ ev) := by
  intro id
  rw [hprop, ret_count_append, burn_count_append, (hev id).1, (hev id).2]
  simpa using hD id

theorem depInv_update (s s' : GovState) (tr ev : List GovEvent) (pid : Nat)
    (q : OracleProposal) (hD : DepositTraceInv s tr)
    (hprop : s'.proposals = aset s.proposals pid q)
    (hothers : ∀ id, id ≠ pid → ret_count id ev = 0 ∧ burn_count id ev = 0)
    (hthis : dep_ok (some q) (ret_count pid tr + ret_count pid ev)
               (burn_count pid tr + burn_count pid ev)) :
    DepositTraceInv s' (tr ++ ev) := by
  intro id
  rw [hprop, alookup_aset, ret_count_append, burn_count_append]
  by_cases hid : id = pid
  · subst hid
    rw [if_pos rfl]
    exact hthis
  · rw [if_neg hid, (hothers id hid).1, (hothers id hid).2]
    simpa using hD id

theorem dispatch_ok_events (now : Nat) (s : GovState) (p : OracleProposal)
    (s1 : GovState) (ev : List GovEvent)
    (h : dispatch_execution now s p = Except.ok (s1, ev)) :
    ev = [] ∨ ev = [GovEvent.oraclePaused now] := by
  unfold dispatch_execution at h
  rcases hty : p.proposal_type with _ | _ | _ | _ <;> rw [hty] at h
  · rw [exec_add_oracle_err] at h
    cases h
  · rw [exec_remove_oracle_err] at h
    cases h
  · unfold exec_update_parameter at h
    rcases hdec : decode_parameter p.execution_payload with e | kv
    · rw [hdec] at h
      cases h
    · obtain ⟨key, val⟩ := kv
      rw [hdec] at h
      match key, h with
      | 0, h =>
        left
        simp only [Except.ok.injEq, Prod.mk.injEq] at h
        exact h.2.symm
      | 1, h =>
        left
        simp only [Except.ok.injEq, Prod.mk.injEq] at h
        exact h.2.symm
      | 2, h =>
        left
        simp only [Except.ok.injEq, Prod.mk.injEq] at h
        exact h.2.symm
      | (n + 3), h => cases h
  · unfold exec_emergency_pause at h
    right
    simp only [Except.ok.injEq, Prod.mk.injEq] at h
    exact h.2.symm

theorem counts_nil (id : Nat) : ret_count id [] = 0 ∧ burn_count id [] = 0 := by
  simp [ret_count, burn_count]

theorem depInv_execute (now : Nat) (s : GovState) (p : OracleProposal)
    (tr : List GovEvent) (hD : DepositTraceInv s tr)
    (hp : alookup s.proposals p.id = some p)
    (hst : p.status = ProposalStatus.Active ∨ p.status = ProposalStatus.ExecutionFailed) :
    DepositTraceInv (execute_proposal now s p).1 (tr ++ (execute_proposal now s p).2.2) := by
  have hcur := hD p.id
  rw [hp] at hcur
  have hzero : ret_count p.id tr = 0 ∧ burn_count p.id tr = 0 := by
    rcases hst with h | h <;> · simp only [dep_ok, h] at hcur; exact hcur
  rcases h : dispatch_execution now s p with e | ⟨s1, ev⟩
  · rw [execute_err_eq now s p e h]
    refine depInv_update s _ tr _ p.id _ hD rfl ?_ ?_
    · intro id hid
      simp [ret_count, burn_count, is_ret_event, is_burn_event, reason_execution_error,
        reason_expired]
    · rw [hzero.1, hzero.2]
      have hr : ret_count p.id [GovEvent.failed p.id reason_execution_error] = 0 := by
        simp [ret_count, is_ret_event]
      have hb : burn_count p.id [GovEvent.failed p.id reason_execution_error] = 0 := by
        simp [burn_count, is_burn_event, reason_execution_error, reason_expired]
      rw [hr, hb]
      exact ⟨rfl, rfl⟩
  · obtain ⟨hf1, hf2, hf3, hf4, hf5, hf6⟩ := dispatch_frame now s p s1 ev h
    have hevd := dispatch_ok_events now s p s1 ev h
    have hevr : ∀ id, ret_count id ev = 0 ∧ burn_count id ev = 0 := by
      intro id
      rcases hevd with he | he <;> subst he <;>
        simp [ret_count, burn_count, is_ret_event, is_burn_event]
    rw [execute_ok_eq now s p s1 ev h]
    refine depInv_update s _ tr
      (ev ++ [GovEvent.depositResolved p.proposer p.deposit true, GovEvent.executed p.id])
      p.id { p with status := ProposalStatus.Executed } hD ?_ ?_ ?_
    · simp only
      rw [hf2]
    · intro id hid
      rw [ret_count_append, burn_count_append, (hevr id).1, (hevr id).2]
      have hid2 : (p.id == id) = false := by
        simp [Ne.symm hid]
      simp [ret_count, burn_count, is_ret_event, is_burn_event, hid2]
    · rw [hzero.1, hzero.2, ret_count_append, burn_count_append, (hevr p.id).1,
        (hevr p.id).2]
      have hr : ret_count p.id
          [GovEvent.depositResolved p.proposer p.deposit true, GovEvent.executed p.id] = 1 := by
        simp [ret_count, is_ret_event]
      have hb : burn_count p.id
          [GovEvent.depositResolved p.proposer p.deposit true, GovEvent.executed p.id] = 0 := by
        simp [burn_count, is_burn_event]
      rw [hr, hb]
      exact ⟨rfl, rfl⟩

theorem depInv_finalise_expired (s : GovState) (p : OracleProposal)
    (tr : List GovEvent) (hD : DepositTraceInv s tr)
    (hp : alookup s.proposals p.id = some p)
    (hst : p.status = ProposalStatus.Active) :
    DepositTraceInv (finalise_expired_proposal s p).1
      (tr ++ (finalise_expired_proposal s p).2.2) := by
  have hcur := hD p.id
  rw [hp] at hcur
  have hzero : ret_count p.id tr = 0 ∧ burn_count p.id tr = 0 := by
    simp only [dep_ok, hst] at hcur
    exact hcur
  unfold finalise_expired_proposal
  refine depInv_update s _ tr _ p.id _ hD rfl ?_ ?_
  · intro id hid
    have hid2 : (p.id == id) = false := by
      simp [Ne.symm hid]
    simp [ret_count, burn_count, is_ret_event, is_burn_event, hid2]
  · rw [hzero.1, hzero.2]
    have hr : ret_count p.id
        [GovEvent.depositResolved p.proposer p.deposit false,
         GovEvent.failed p.id reason_expired] = 0 := by
      simp [ret_count, is_ret_event]
    have hb : burn_count p.id
        [GovEvent.depositResolved p.proposer p.deposit false,
         GovEvent.failed p.id reason_expired] = 1 := by
      simp [burn_count, is_burn_event]
    rw [hr, hb]
    exact ⟨rfl, rfl⟩

theorem depInv_deposit (s : GovState) (a : Addr) (amt : Int) (tr : List GovEvent)
    (hD : DepositTraceInv s tr) :
    DepositTraceInv (deposit_stake s a amt).2.1 (tr ++ (deposit_stake s a amt).2.2) := by
  unfold deposit_stake
  split
  · simpa using hD
  · refine depInv_frame s _ tr _ hD rfl ?_
    intro id
    simp [ret_count, burn_count, is_ret_event, is_burn_event]

theorem depInv_withdraw (s : GovState) (a : Addr) (amt : Int) (tr : List GovEvent)
    (hD : DepositTraceInv s tr) :
    DepositTraceInv (withdraw_stake s a amt).2.1 (tr ++ (withdraw_stake s a amt).2.2) := by
  unfold withdraw_stake
  split
  · simpa using hD
  · refine depInv_frame s _ tr _ hD rfl ?_
    intro id
    simp [ret_count, burn_count, is_ret_event, is_burn_event]

theorem depInv_init_admin (s : GovState) (a : Addr) (tr : List GovEvent)
    (hD : DepositTraceInv s tr) :
    DepositTraceInv (init_admin s a).2.1 (tr ++ (init_admin s a).2.2) := by
  unfold init_admin
  rcases s.gov_admin with _ | stored
  · simpa using hD
  · simpa using hD

theorem depInv_create (now : Nat) (s : GovState) (proposer : Addr)
    (ptype : ProposalType) (d : String) (payload : List Nat) (tr : List GovEvent)
    (hS : StateInv s) (hD : DepositTraceInv s tr) :
    DepositTraceInv (create_proposal now s proposer ptype d payload).2.1
      (tr ++ (create_proposal now s proposer ptype d payload).2.2) := by
  have hfresh : alookup s.proposals (s.proposal_counter + 1) = none :=
    alookup_none_of_big s.proposals s.proposal_counter hS.2.1
  have hcur := hD (s.proposal_counter + 1)
  rw [hfresh] at hcur
  simp only [dep_ok] at hcur
  unfold create_proposal
  split
  · simpa using hD
  · refine depInv_update s _ tr _ (s.proposal_counter + 1) _ hD rfl ?_ ?_
    · intro id hid
      simp [ret_count, burn_count, is_ret_event, is_burn_event]
    · rw [hcur.1, hcur.2]
      have hr : ret_count (s.proposal_counter + 1)
          [GovEvent.proposed (s.proposal_counter + 1) proposer ptype] = 0 := by
        simp [ret_count, is_ret_event]
      have hb : burn_count (s.proposal_counter + 1)
          [GovEvent.proposed (s.proposal_counter + 1) proposer ptype] = 0 := by
        simp [burn_count, is_burn_event]
      rw [hr, hb]
      exact ⟨rfl, rfl⟩

theorem counts_voteCast (id pid : Nat) (voter : Addr) (v : Bool) (w : Int) :
    ret_count id [GovEvent.voteCast pid voter v w] = 0 ∧
    burn_count id [GovEvent.voteCast pid voter v w] = 0 := by
  simp [ret_count, burn_count, is_ret_event, is_burn_event]

theorem depInv_vote (now : Nat) (s : GovState) (pid : Nat) (voter : Addr) (v : Bool)
    (tr : List GovEvent) (hS : StateInv s) (hD : DepositTraceInv s tr) :
    DepositTraceInv (vote_on_proposal now s pid voter v).2.1
      (tr ++ (vote_on_proposal now s pid voter v).2.2) := by
  unfold vote_on_proposal
  rcases hp : alookup s.proposals pid with _ | p
  · simpa using hD
  have hpid : p.id = pid := hS.1 (pid, p) (alookup_mem _ _ _ hp)
  have hmid : ∀ w : Int, DepositTraceInv
      (vote_mid_state s pid voter (tally_proposal p v w))
      (tr ++ [GovEvent.voteCast pid voter v w]) := by
    intro w
    refine depInv_update s _ tr _ pid (tally_proposal p v w) hD ?_ ?_ ?_
    · simp only [vote_mid_state]
      rw [tally_id, hpid]
    · intro id hid
      exact counts_voteCast id pid voter v w
    · rw [(counts_voteCast pid pid voter v w).1, (counts_voteCast pid pid voter v w).2]
      have hcur := hD pid
      rw [hp] at hcur
      exact dep_ok_congr p _ (tally_status p v w) _ _ (by simpa using hcur)
  simp only
  split
  · simpa using hD
  next hA =>
    push_neg at hA
    split
    next hexp =>
      have h := depInv_finalise_expired s p tr hD (by rw [hpid]; exact hp) hA
      exact h
    next hexp =>
      split
      · simpa using hD
      split
      · simpa using hD
      next hw =>
        split
        next hq =>
          rw [List.append_cons]
          refine depInv_execute now _ _ _ (hmid _) ?_ ?_
          · exact alookup_mid_state s pid voter _
          · left
            rw [tally_status]
            exact hA
        · exact hmid _

theorem depInv_finalise (now : Nat) (s : GovState) (pid : Nat) (tr : List GovEvent)
    (hS : StateInv s) (hD : DepositTraceInv s tr) :
    DepositTraceInv (finalise_proposal now s pid).2.1
      (tr ++ (finalise_proposal now s pid).2.2) := by
  unfold finalise_proposal
  rcases hp : alookup s.proposals pid with _ | p
  · simpa using hD
  have hpid : p.id = pid := hS.1 (pid, p) (alookup_mem _ _ _ hp)
  simp only
  split
  · simpa using hD
  next hA =>
    push_neg at hA
    split
    · simpa using hD
    split
    · exact depInv_execute now s p tr hD (by rw [hpid]; exact hp) (Or.inl hA)
    · exact depInv_finalise_expired s p tr hD (by rw [hpid]; exact hp) hA

theorem depInv_retry (now : Nat) (s : GovState) (pid : Nat) (tr : List GovEvent)
    (hS : StateInv s) (hD : DepositTraceInv s tr) :
    DepositTraceInv (retry_execution now s pid).2.1
      (tr ++ (retry_execution now s pid).2.2) := by
  unfold retry_execution
  rcases hp : alookup s.proposals pid with _ | p
  · simpa using hD
  have hpid : p.id = pid := hS.1 (pid, p) (alookup_mem _ _ _ hp)
  simp only
  split
  · simpa using hD
  next hE =>
    push_neg at hE
    exact depInv_execute now s p tr hD (by rw [hpid]; exact hp) (Or.inr hE)

theorem depInv_cancel (s : GovState) (admin : Addr) (pid : Nat) (tr : List GovEvent)
    (hS : StateInv s) (hD : DepositTraceInv s tr) :
    DepositTraceInv (cancel_proposal s admin pid).2.1
      (tr ++ (cancel_proposal s admin pid).2.2) := by
  unfold cancel_proposal
  rcases s.gov_admin with _ | stored
  · simpa using hD
  simp only
  split
  · simpa using hD
  rcases hp : alookup s.proposals pid with _ | p
  · simpa using hD
  have hpid : p.id = pid := hS.1 (pid, p) (alookup_mem _ _ _ hp)
  simp only
  split
  · simpa using hD
  next hA =>
    push_neg at hA
    have hcur := hD pid
    rw [hp] at hcur
    have hzero : ret_count pid tr = 0 ∧ burn_count pid tr = 0 := by
      simp only [dep_ok, hA] at hcur
      exact hcur
    refine depInv_update s _ tr _ pid { p with status := ProposalStatus.Cancelled }
      hD ?_ ?_ ?_
    · simp only
      rw [hpid]
    · intro id hid
      have hid2 : (pid == id) = false := by
        simp [Ne.symm hid]
      simp [ret_count, burn_count, is_ret_event, is_burn_event, hid2]
    · rw [hzero.1, hzero.2]
      have hr : ret_count pid [GovEvent.cancelled pid] = 1 := by
        simp [ret_count, is_ret_event]
      have hb : burn_count pid [GovEvent.cancelled pid] = 0 := by
        simp [burn_count, is_burn_event]
      rw [hr, hb]
      exact ⟨rfl, rfl⟩

theorem depInv_runOp (s : GovState) (op : GovOp) (tr : List GovEvent)
    (hS : StateInv s) (hD : DepositTraceInv s tr) :
    DepositTraceInv (runOp s op).2.1 (tr ++ (runOp s op).2.2) := by
  cases op with
  | depositStake a amt => exact depInv_deposit s a amt tr hD
  | withdrawStake a amt => exact depInv_withdraw s a amt tr hD
  | createProposal now proposer ptype d payload =>
    exact depInv_create now s proposer ptype d payload tr hS hD
  | voteOnProposal now pid voter v => exact depInv_vote now s pid voter v tr hS hD
  | finaliseProposal now pid => exact depInv_finalise now s pid tr hS hD
  | retryExecution now pid => exact depInv_retry now s pid tr hS hD
  | cancelProposal admin pid => exact depInv_cancel s admin pid tr hS hD
  | initAdmin admin => exact depInv_init_admin s admin tr hD

theorem depInv_runFrom (s : GovState) (ops : List GovOp) (tr : List GovEvent)
    (hS : StateInv s) (hD : DepositTraceInv s tr) :
    DepositTraceInv (runFrom s ops).1 (tr ++ (runFrom s ops).2) := by
  induction ops generalizing s tr with
  | nil => simpa [runFrom] using hD
  | cons op ops ih =>
    have h1 := depInv_runOp s op tr hS hD
    have h2 := ih (runOp s op).2.1 (tr ++ (runOp s op).2.2)
      (stateInv_runOp s op hS) h1
    simp only [runFrom]
    rw [List.append_assoc] at h2
    exact h2

theorem depInv_init : DepositTraceInv initState [] := by
  intro id
  simp [initState, alookup, ret_count, burn_count, dep_ok]

theorem depInv_run (ops : List GovOp) :
    DepositTraceInv (run ops).1 (run ops).2 := by
  have h := depInv_runFrom initState ops [] stateInv_init depInv_init
  simpa [run] using h

/-! ## Ballot-uniqueness trace invariant -/

/-- A recorded ballot: the `vote` event of `emit_vote_cast`, keyed by
proposal and voter. -/
def is_vote_event (pid : Nat) (voter : Addr) : GovEvent → Bool
  | GovEvent.voteCast j w _ _ => j == pid && w == voter
  | _ => false

/-- Number of ballots recorded in the trace for `(pid, voter)`. -/
def vote_count (pid : Nat) (voter : Addr) (tr : List GovEvent) : Nat :=
  tr.countP (is_vote_event pid voter)

/-- The ballot marker is set exactly when one ballot was recorded. -/
def VoteTraceInv (s : GovState) (tr : List GovEvent) : Prop :=
  ∀ pid voter, vote_count pid voter tr =
    if (pid, voter) ∈ s.voted_pairs then 1 else 0

theorem has_voted_mem (s : GovState) (pid : Nat) (voter : Addr) :
    has_voted_in s pid voter = true ↔ (pid, voter) ∈ s.voted_pairs := by
  simp [has_voted_in, List.contains, List.elem_iff]

theorem vote_count_append (pid : Nat) (voter : Addr) (tr ev : List GovEvent) :
    vote_count pid voter (tr ++ ev) = vote_count pid voter tr + vote_count pid voter ev :=
  List.countP_append _ _ _

theorem voteInv_frame (s s' : GovState) (tr ev : List GovEvent)
    (hV : VoteTraceInv s tr) (hvp : s'.voted_pairs = s.voted_pairs)
    (hev : ∀ pid voter, vote_count pid voter ev = 0) :
    VoteTraceInv s' (tr ++ ev) := by
  intro pid voter
  rw [hvp, vote_count_append, hev pid voter]
  simpa using hV pid voter

theorem execute_voted_pairs (now : Nat) (s : GovState) (p : OracleProposal) :
    (execute_proposal now s p).1.voted_pairs = s.voted_pairs := by
  rcases h : dispatch_execution now s p with e | ⟨s1, ev⟩
  · rw [execute_err_eq now s p e h]
  · obtain ⟨hf1, hf2, hf3, hf4, hf5, hf6⟩ := dispatch_frame now s p s1 ev h
    rw [execute_ok_eq now s p s1 ev h]
    exact hf3

theorem execute_no_vote_events (now : Nat) (s : GovState) (p : OracleProposal)
    (pid : Nat) (voter : Addr) :
    vote_count pid voter (execute_proposal now s p).2.2 = 0 := by
  rcases h : dispatch_execution now s p with e | ⟨s1, ev⟩
  · rw [execute_err_eq now s p e h]
    simp [vote_count, is_vote_event]
  · rw [execute_ok_eq now s p s1 ev h]
    rcases dispatch_ok_events now s p s1 ev h with he | he <;> subst he <;>
      simp [vote_count, is_vote_event]

theorem voteInv_execute (now : Nat) (s : GovState) (p : OracleProposal)
    (tr : List GovEvent) (hV : VoteTraceInv s tr) :
    VoteTraceInv (execute_proposal now s p).1 (tr ++ (execute_proposal now s p).2.2) :=
  voteInv_frame s _ tr _ hV (execute_voted_pairs now s p)
    (fun pid voter => execute_no_vote_events now s p pid voter)

theorem voteInv_finalise_expired (s : GovState) (p : OracleProposal)
    (tr : List GovEvent) (hV : VoteTraceInv s tr) :
    VoteTraceInv (finalise_expired_proposal s p).1
      (tr ++ (finalise_expired_proposal s p).2.2) := by
  refine voteInv_frame s _ tr _ hV rfl ?_
  intro pid voter
  simp [finalise_expired_proposal, vote_count, is_vote_event]

theorem voteInv_vote (now : Nat) (s : GovState) (pid : Nat) (voter : Addr) (v : Bool)
    (tr : List GovEvent) (hV : VoteTraceInv s tr) :
    VoteTraceInv (vote_on_proposal now s pid voter v).2.1
      (tr ++ (vote_on_proposal now s pid voter v).2.2) := by
  unfold vote_on_proposal
  rcases hp : alookup s.proposals pid with _ | p
  · simpa using hV
  simp only
  split
  · simpa using hV
  next hA =>
    split
    next hexp => exact voteInv_finalise_expired s p tr hV
    next hexp =>
      split
      · simpa using hV
      next hvoted =>
        have hnotmem : (pid, voter) ∉ s.voted_pairs := by
          rw [← has_voted_mem]
          simpa using hvoted
        have hmid : ∀ w : Int, VoteTraceInv
            (vote_mid_state s pid voter (tally_proposal p v w))
            (tr ++ [GovEvent.voteCast pid voter v w]) := by
          intro w pid' voter'
          simp only [vote_mid_state]
          rw [vote_count_append]
          by_cases hpair : (pid', voter') = (pid, voter)
          · obtain ⟨h1, h2⟩ := Prod.mk.injEq .. ▸ hpair
            subst h1
            subst h2
            have h0 := hV pid' voter'
            rw [if_neg hnotmem] at h0
            rw [h0]
            simp [vote_count, is_vote_event, List.mem_cons]
          · have hne : vote_count pid' voter' [GovEvent.voteCast pid voter v w] = 0 := by
              have : ¬(pid = pid' ∧ voter = voter') := by
                intro ⟨ha, hb⟩
                exact hpair (by rw [ha, hb])
              simp only [vote_count, is_vote_event, List.countP_cons, List.countP_nil]
              by_cases h1 : pid = pid'
              · subst h1
                have h2 : voter ≠ voter' := fun hc => this ⟨rfl, hc⟩
                simp [h2]
              · simp [h1]
            rw [hne]
            have hmem : ((pid', voter') ∈ (pid, voter) :: s.voted_pairs) ↔
                ((pid', voter') ∈ s.voted_pairs) := by
              simp [List.mem_cons, hpair]
            have h0 := hV pid' voter'
            rw [h0]
            by_cases hm : (pid', voter') ∈ s.voted_pairs
            · rw [if_pos hm, if_pos (hmem.mpr hm)]
            · rw [if_neg hm, if_neg (fun hc => hm (hmem.mp hc))]
        split
        · simpa using hV
        split
        next hq =>
          rw [List.append_cons]
          exact voteInv_execute now _ _ _ (hmid _)
        · exact hmid _

theorem voteInv_deposit (s : GovState) (a : Addr) (amt : Int) (tr : List GovEvent)
    (hV : VoteTraceInv s tr) :
    VoteTraceInv (deposit_stake s a amt).2.1 (tr ++ (deposit_stake s a amt).2.2) := by
  unfold deposit_stake
  split
  · simpa using hV
  · refine voteInv_frame s _ tr _ hV rfl ?_
    intro pid voter
    simp [vote_count, is_vote_event]

theorem voteInv_withdraw (s : GovState) (a : Addr) (amt : Int) (tr : List GovEvent)
    (hV : VoteTraceInv s tr) :
    VoteTraceInv (withdraw_stake s a amt).2.1 (tr ++ (withdraw_stake s a amt).2.2) := by
  unfold withdraw_stake
  split
  · simpa using hV
  · refine voteInv_frame s _ tr _ hV rfl ?_
    intro pid voter
    simp [vote_count, is_vote_event]

theorem voteInv_create (now : Nat) (s : GovState) (proposer : Addr)
    (ptype : ProposalType) (d : String) (payload : List Nat) (tr : List GovEvent)
    (hV : VoteTraceInv s tr) :
    VoteTraceInv (create_proposal now s proposer ptype d payload).2.1
      (tr ++ (create_proposal now s proposer ptype d payload).2.2) := by
  unfold create_proposal
  split
  · simpa using hV
  · refine voteInv_frame s _ tr _ hV rfl ?_
    intro pid voter
    simp [vote_count, is_vote_event]

theorem voteInv_finalise (now : Nat) (s : GovState) (pid : Nat) (tr : List GovEvent)
    (hV : VoteTraceInv s tr) :
    VoteTraceInv (finalise_proposal now s pid).2.1
      (tr ++ (finalise_proposal now s pid).2.2) := by
  unfold finalise_proposal
  rcases hp : alookup s.proposals pid with _ | p
  · simpa using hV
  simp only
  split
  · simpa using hV
  split
  · simpa using hV
  split
  · exact voteInv_execute now s p tr hV
  · exact voteInv_finalise_expired s p tr hV

theorem voteInv_retry (now : Nat) (s : GovState) (pid : Nat) (tr : List GovEvent)
    (hV : VoteTraceInv s tr) :
    VoteTraceInv (retry_execution now s pid).2.1
      (tr ++ (retry_execution now s pid).2.2) := by
  unfold retry_execution
  rcases hp : alookup s.proposals pid with _ | p
  · simpa using hV
  simp only
  split
  · simpa using hV
  · exact voteInv_execute now s p tr hV

theorem voteInv_cancel (s : GovState) (admin : Addr) (pid : Nat) (tr : List GovEvent)
    (hV : VoteTraceInv s tr) :
    VoteTraceInv (cancel_proposal s admin pid).2.1
      (tr ++ (cancel_proposal s admin pid).2.2) := by
  unfold cancel_proposal
  rcases s.gov_admin with _ | stored
  · simpa using hV
  simp only
  split
  · simpa using hV
  rcases hp : alookup s.proposals pid with _ | p
  · simpa using hV
  simp only
  split
  · simpa using hV
  · refine voteInv_frame s _ tr _ hV rfl ?_
    intro pid' voter'
    simp [vote_count, is_vote_event]

theorem voteInv_init_admin (s : GovState) (a : Addr) (tr : List GovEvent)
    (hV : VoteTraceInv s tr) :
    VoteTraceInv (init_admin s a).2.1 (tr ++ (init_admin s a).2.2) := by
  unfold init_admin
  rcases s.gov_admin with _ | stored
  · simpa using hV
  · simpa using hV

theorem voteInv_runOp (s : GovState) (op : GovOp) (tr : List GovEvent)
    (hV : VoteTraceInv s tr) :
    VoteTraceInv (runOp s op).2.1 (tr ++ (runOp s op).2.2) := by
  cases op with
  | depositStake a amt => exact voteInv_deposit s a amt tr hV
  | withdrawStake a amt => exact voteInv_withdraw s a amt tr hV
  | createProposal now proposer ptype d payload =>
    exact voteInv_create now s proposer ptype d payload tr hV
  | voteOnProposal now pid voter v => exact voteInv_vote now s pid voter v tr hV
  | finaliseProposal now pid => exact voteInv_finalise now s pid tr hV
  | retryExecution now pid => exact voteInv_retry now s pid tr hV
  | cancelProposal admin pid => exact voteInv_cancel s admin pid tr hV
  | initAdmin admin => exact voteInv_init_admin s admin tr hV

theorem voteInv_runFrom (s : GovState) (ops : List GovOp) (tr : List GovEvent)
    (hV : VoteTraceInv s tr) :
    VoteTraceInv (runFrom s ops).1 (tr ++ (runFrom s ops).2) := by
  induction ops generalizing s tr with
  | nil => simpa [runFrom] using hV
  | cons op ops ih =>
    have h2 := ih (runOp s op).2.1 (tr ++ (runOp s op).2.2) (voteInv_runOp s op tr hV)
    simp only [runFrom]
    rw [List.append_assoc] at h2
    exact h2

theorem voteInv_init : VoteTraceInv initState [] := by
  intro pid voter
  simp [initState, vote_count]

theorem voteInv_run (ops : List GovOp) :
    VoteTraceInv (run ops).1 (run ops).2 := by
  have h := voteInv_runFrom initState ops [] voteInv_init
  simpa [run] using h

instance exceptDecEq {α β : Type} [DecidableEq α] [DecidableEq β] :
    DecidableEq (Except α β) := fun x y =>
  match x, y with
  | Except.ok a, Except.ok b =>
    if h : a = b then isTrue (by rw [h])
    else isFalse (by intro hc; cases hc; exact h rfl)
  | Except.error a, Except.error b =>
    if h : a = b then isTrue (by rw [h])
    else isFalse (by intro hc; cases hc; exact h rfl)
  | Except.ok a, Except.error b => isFalse (by intro hc; cases hc)
  | Except.error a, Except.ok b => isFalse (by intro hc; cases hc)

/-! ## Claim theorems -/

-- Concrete records used by the example conjuncts and witnesses.

def descr_ex : String := ""

/-- A non-emergency proposal with votes 6000 for / 4000 against. -/
def exP1 : OracleProposal :=
  { id := 1, proposer := 0, proposal_type := ProposalType.UpdateParameter,
    description := descr_ex, votes_for := 6000, votes_against := 4000,
    voting_ends := 0, status := ProposalStatus.Active, execution_payload := [],
    deposit := 0 }

/-- A non-emergency proposal with votes 8000 for / 2000 against. -/
def exP2 : OracleProposal :=
  { exP1 with votes_for := 8000, votes_against := 2000 }

/-- C6: the quorum/approval evaluator is pure and computes: quorum reached
iff `total_staked > 0` and `(votes_for + votes_against) * 10000 ≥
1000 * total_staked`; approved iff `votes_for + votes_against > 0` and
`votes_for * 10000 ≥ T * (votes_for + votes_against)` with `T = 8000` for
`EmergencyPause` and `6600` otherwise (stated on the non-negative vote and
stake values that arise in every reachable state); in particular 6000 for /
4000 against with total 10000 meets quorum but is not approved for a
non-emergency proposal, while 8000 for / 2000 against is approved. -/
theorem C6_quorum_approval_evaluator :
    (∀ (p : OracleProposal) (ts : Int),
      0 ≤ p.votes_for → 0 ≤ p.votes_against → 0 ≤ ts →
      ((is_quorum_reached p ts = true ↔
          0 < ts ∧ (p.votes_for + p.votes_against) * 10000 ≥ 1000 * ts) ∧
       (is_approved p = true ↔
          0 < p.votes_for + p.votes_against ∧
          p.votes_for * 10000 ≥
            (if p.proposal_type = ProposalType.EmergencyPause then 8000 else 6600) *
              (p.votes_for + p.votes_against)))) ∧
    is_quorum_reached exP1 10000 = true ∧
    is_approved exP1 = false ∧
    is_approved exP2 = true := by
  refine ⟨?_, by decide, by decide, by decide⟩
  intro p ts hf ha hts
  constructor
  · unfold is_quorum_reached
    by_cases h0 : ts = 0
    · subst h0
      simp
    · rw [if_neg h0]
      simp only [decide_eq_true_eq, ge_iff_le, QUORUM_BPS]
      constructor
      · intro h
        exact ⟨by omega, h⟩
      · intro h
        exact h.2
  · unfold is_approved
    by_cases h0 : p.votes_for + p.votes_against = 0
    · rw [if_pos h0]
      simp only [Bool.false_eq_true, false_iff]
      intro hc
      omega
    · rw [if_neg h0]
      simp only [decide_eq_true_eq, ge_iff_le]
      rcases hty : p.proposal_type with _ | _ | _ | _ <;>
        simp only [hty, EMERGENCY_THRESHOLD_BPS, APPROVAL_THRESHOLD_BPS] <;>
        constructor <;> intro h
      · exact ⟨by omega, h⟩
      · exact h.2
      · exact ⟨by omega, h⟩
      · exact h.2
      · exact ⟨by omega, h⟩
      · exact h.2
      · exact ⟨by omega, h⟩
      · exact h.2

/-- Witness for C6 at a concrete input. -/
theorem C6_quorum_approval_evaluator_witness :
    (0 : Int) ≤ exP1.votes_for ∧
    (is_quorum_reached exP1 10000 = true ↔
      0 < (10000 : Int) ∧ (exP1.votes_for + exP1.votes_against) * 10000 ≥ 1000 * 10000) := by
  refine ⟨by decide, ?_⟩
  exact (C6_quorum_approval_evaluator.1 exP1 10000 (by decide) (by decide) (by decide)).1

/-- C8: `create_proposal` with proposer stake at least `PROPOSAL_DEPOSIT`
succeeds, decreases the proposer's stake balance by exactly
`PROPOSAL_DEPOSIT` and leaves `TotalStaked` unchanged; with smaller stake it
fails and changes nothing. -/
theorem C8_create_proposal_deposit (now : Nat) (s : GovState) (proposer : Addr)
    (ptype : ProposalType) (d : String) (payload : List Nat) :
    (PROPOSAL_DEPOSIT ≤ get_stake_of s.stakes proposer →
      (create_proposal now s proposer ptype d payload).1 =
        Except.ok (s.proposal_counter + 1) ∧
      get_stake_of (create_proposal now s proposer ptype d payload).2.1.stakes proposer =
        get_stake_of s.stakes proposer - PROPOSAL_DEPOSIT ∧
      (create_proposal now s proposer ptype d payload).2.1.total_staked =
        s.total_staked) ∧
    (get_stake_of s.stakes proposer < PROPOSAL_DEPOSIT →
      (create_proposal now s proposer ptype d payload).1 =
        Except.error OracleError.InsufficientOracles ∧
      (create_proposal now s proposer ptype d payload).2.1 = s) := by
  constructor
  · intro hge
    unfold create_proposal
    rw [if_neg (by omega)]
    refine ⟨rfl, ?_, rfl⟩
    simp only
    exact get_stake_of_aset_self _ _ _
  · intro hlt
    unfold create_proposal
    rw [if_pos hlt]
    exact ⟨rfl, rfl⟩

def stateC8 : GovState := (run [GovOp.depositStake 0 (2 * PROPOSAL_DEPOSIT)]).1

/-- Witness for C8 at a concrete reachable state. -/
theorem C8_create_proposal_deposit_witness :
    PROPOSAL_DEPOSIT ≤ get_stake_of stateC8.stakes 0 ∧
    ((create_proposal 0 stateC8 0 ProposalType.AddOracle descr_ex []).1 =
      Except.ok (stateC8.proposal_counter + 1) ∧
     get_stake_of (create_proposal 0 stateC8 0 ProposalType.AddOracle descr_ex []).2.1.stakes 0 =
      get_stake_of stateC8.stakes 0 - PROPOSAL_DEPOSIT ∧
     (create_proposal 0 stateC8 0 ProposalType.AddOracle descr_ex []).2.1.total_staked =
      stateC8.total_staked) := by
  refine ⟨by decide, ?_⟩
  exact (C8_create_proposal_deposit 0 stateC8 0 ProposalType.AddOracle descr_ex []).1
    (by decide)

theorem execute_total (now : Nat) (s : GovState) (p : OracleProposal) :
    (execute_proposal now s p).1.total_staked = s.total_staked := by
  rcases h : dispatch_execution now s p with e | ⟨s1, ev⟩
  · rw [execute_err_eq now s p e h]
  · obtain ⟨hf1, hf2, hf3, hf4, hf5, hf6⟩ := dispatch_frame now s p s1 ev h
    rw [execute_ok_eq now s p s1 ev h]
    exact hf4

/-- C10: `TotalStaked` is mutated only by `deposit_stake` and
`withdraw_stake` — voting, finalisation, retries, cancellation, proposal
creation and the execution dispatcher (deposit return included) all leave it
unchanged. -/
theorem C10_total_staked_frame :
    (∀ now s pid voter v,
      (vote_on_proposal now s pid voter v).2.1.total_staked = s.total_staked) ∧
    (∀ now s pid, (finalise_proposal now s pid).2.1.total_staked = s.total_staked) ∧
    (∀ now s pid, (retry_execution now s pid).2.1.total_staked = s.total_staked) ∧
    (∀ s admin pid, (cancel_proposal s admin pid).2.1.total_staked = s.total_staked) ∧
    (∀ now (s : GovState) p, (execute_proposal now s p).1.total_staked = s.total_staked) ∧
    (∀ (s : GovState) p, (finalise_expired_proposal s p).1.total_staked = s.total_staked) ∧
    (∀ now s proposer ptype d payload,
      (create_proposal now s proposer ptype d payload).2.1.total_staked = s.total_staked) := by
  refine ⟨?_, ?_, ?_, ?_, ?_, ?_, ?_⟩
  · intro now s pid voter v
    unfold vote_on_proposal
    rcases hp : alookup s.proposals pid with _ | p
    · rfl
    simp only
    split
    · rfl
    split
    · rfl
    split
    · rfl
    split
    · rfl
    split
    · exact execute_total now _ _
    · rfl
  · intro now s pid
    unfold finalise_proposal
    rcases hp : alookup s.proposals pid with _ | p
    · rfl
    simp only
    split
    · rfl
    split
    · rfl
    split
    · exact execute_total now s p
    · rfl
  · intro now s pid
    unfold retry_execution
    rcases hp : alookup s.proposals pid with _ | p
    · rfl
    simp only
    split
    · rfl
    · exact execute_total now s p
  · intro s admin pid
    unfold cancel_proposal
    rcases s.gov_admin with _ | stored
    · rfl
    simp only
    split
    · rfl
    rcases hp : alookup s.proposals pid with _ | p
    · rfl
    simp only
    split
    · rfl
    · rfl
  · exact execute_total
  · intro s p
    rfl
  · intro now s proposer ptype d payload
    unfold create_proposal
    split
    · rfl
    · rfl

-- C1 / C2 concrete inputs: a funded proposer creates an AddOracle proposal
-- with a non-empty, well-formed payload.

def payloadC1 : List Nat := [1, 2, 3]

def opsC1 : List GovOp :=
  [GovOp.depositStake 0 (2 * PROPOSAL_DEPOSIT),
   GovOp.createProposal 0 0 ProposalType.AddOracle descr_ex payloadC1]

def stateC1 : GovState := (run opsC1).1

/-- The `Active` AddOracle proposal stored by `opsC1`. -/
def propC1 : OracleProposal :=
  { id := 1, proposer := 0, proposal_type := ProposalType.AddOracle,
    description := descr_ex, votes_for := 0, votes_against := 0,
    voting_ends := VOTING_PERIOD_SECONDS, status := ProposalStatus.Active,
    execution_payload := payloadC1, deposit := PROPOSAL_DEPOSIT }

/-- C1 (code bug): executing an approved `AddOracle` proposal is supposed to
decode the target address, append it to the membership list, initialise its
reputation and return the deposit with status `Executed`; but
`decode_oracle_address` is a placeholder that errors on every payload, so at
this concrete reachable input the execution attempt fails: nothing is
appended, the deposit stays locked, and the status becomes
`ExecutionFailed`. -/
theorem C1_add_oracle_execution_stubbed :
    alookup stateC1.proposals 1 = some propC1 ∧
    decode_oracle_address payloadC1 = Except.error OracleError.InvalidPrice ∧
    exec_add_oracle stateC1 propC1 = Except.error OracleError.InvalidPrice ∧
    (execute_proposal 0 stateC1 propC1).2.1.status = ProposalStatus.ExecutionFailed ∧
    (execute_proposal 0 stateC1 propC1).1.stakes = stateC1.stakes ∧
    (execute_proposal 0 stateC1 propC1).1.oracles = stateC1.oracles ∧
    (execute_proposal 0 stateC1 propC1).1.oracle_stats = stateC1.oracle_stats := by
  decide

def opsC2 : List GovOp :=
  opsC1 ++ [GovOp.voteOnProposal 0 1 0 true]

/-- The stored proposal after `opsC2`: the eager execution attempt failed. -/
def propC2 : OracleProposal :=
  { propC1 with votes_for := PROPOSAL_DEPOSIT, status := ProposalStatus.ExecutionFailed }

/-- C2: `decode_oracle_address` errors on every payload, so every execution
attempt of an `AddOracle` or `RemoveOracle` proposal — `execute_proposal` is
the single dispatch point reached from `vote_on_proposal`,
`finalise_proposal` and `retry_execution` — re-saves the proposal with
status `ExecutionFailed`, leaves every stake balance untouched (the deposit
is never returned), and in no reachable state does an `AddOracle` or
`RemoveOracle` proposal carry status `Executed`. -/
theorem C2_add_remove_execution_always_fails :
    (∀ payload : List Nat,
      decode_oracle_address payload = Except.error OracleError.InvalidPrice) ∧
    (∀ now (s : GovState) (p : OracleProposal),
      (p.proposal_type = ProposalType.AddOracle ∨
       p.proposal_type = ProposalType.RemoveOracle) →
      execute_proposal now s p =
        ({ s with proposals := aset s.proposals p.id { p with status := ProposalStatus.ExecutionFailed } },
         { p with status := ProposalStatus.ExecutionFailed },
         [GovEvent.failed p.id reason_execution_error]) ∧
      (execute_proposal now s p).1.stakes = s.stakes ∧
      (execute_proposal now s p).1.total_staked = s.total_staked) ∧
    (∀ ops id p, alookup (run ops).1.proposals id = some p →
      (p.proposal_type = ProposalType.AddOracle ∨
       p.proposal_type = ProposalType.RemoveOracle) →
      p.status ≠ ProposalStatus.Executed) := by
  refine ⟨decode_oracle_address_err, ?_, ?_⟩
  · intro now s p hty
    have herr := execute_err_eq now s p OracleError.InvalidPrice
      (dispatch_addremove_err now s p hty)
    rw [herr]
    exact ⟨rfl, rfl, rfl⟩
  · intro ops id p hp hty
    exact (stateInv_run ops).2.2.2.1 (id, p) (alookup_mem _ _ _ hp) hty

/-- Witness for C2: the concrete reachable run `opsC2` ends with the
AddOracle proposal in `ExecutionFailed`, and a direct execution attempt on
the stored proposal fails without touching the stakes. -/
theorem C2_add_remove_execution_always_fails_witness :
    alookup (run opsC2).1.proposals 1 = some propC2 ∧
    propC2.status ≠ ProposalStatus.Executed ∧
    (execute_proposal 0 stateC1 propC1).1.stakes = stateC1.stakes := by
  refine ⟨by decide, ?_, ?_⟩
  · exact (C2_add_remove_execution_always_fails.2.2 opsC2 1 propC2 (by decide)
      (Or.inl (by decide)))
  · exact ((C2_add_remove_execution_always_fails.2.1 0 stateC1 propC1
      (Or.inl (by decide))).2.1)

def opsC3 : List GovOp :=
  [GovOp.depositStake 0 PROPOSAL_DEPOSIT,
   GovOp.createProposal 0 0 ProposalType.AddOracle descr_ex []]

/-- Counterexample to C3 as stated: after a deposit followed by
`create_proposal`, `TotalStaked` still holds the full deposit while the sum
of all stake balances is zero (the locked deposit was subtracted from the
proposer's balance but not from the total), so the claimed equality fails at
an observable point between public operations. -/
theorem C3_counterexample :
    (run opsC3).1.total_staked = PROPOSAL_DEPOSIT ∧
    sum_stakes (run opsC3).1.stakes = 0 ∧
    (run opsC3).1.total_staked ≠ sum_stakes (run opsC3).1.stakes := by
  decide

/-- C3 (amended): at every point observable between public operations,
`TotalStaked` is non-negative and equals the sum of all StakeAccount
amounts **plus** the deposits of the proposals whose deposit was locked and
never credited back (status `Active`, `ExecutionFailed`, or `Failed`); the
bare equality with the stake sum holds only before any proposal is
created. -/
theorem C3_total_staked_invariant_amended (ops : List GovOp) :
    0 ≤ (run ops).1.total_staked ∧
    (run ops).1.total_staked =
      sum_stakes (run ops).1.stakes + outstanding_deposits (run ops).1.proposals := by
  have h := stateInv_run ops
  have ht := h.2.2.2.2.2
  have hs := sum_stakes_nonneg _ h.2.2.2.2.1
  have ho := outstanding_nonneg _ h.2.2.1
  exact ⟨by omega, ht⟩

def opsC4 : List GovOp :=
  [GovOp.depositStake 0 (2 * PROPOSAL_DEPOSIT),
   GovOp.createProposal 0 0 ProposalType.AddOracle descr_ex []]

def stateC4 : GovState := (run opsC4).1

def opC4 : GovOp := GovOp.voteOnProposal VOTING_PERIOD_SECONDS 1 0 true

/-- Counterexample to C4 as stated: a vote cast at the moment the voting
window of an `Active` proposal has closed returns an error **and** mutates
the state (the proposal is saved as `Failed`), so a failing
`vote_on_proposal` call does make a mutation. -/
theorem C4_counterexample :
    (runOp stateC4 opC4).1 = Except.error OracleError.InvalidPrice ∧
    (runOp stateC4 opC4).2.1 ≠ stateC4 := by
  decide

/-- C4 (amended): every public operation that returns an error leaves the
state unchanged, with exactly one exception: `vote_on_proposal` on an
`Active` proposal whose window has closed, which lazily saves the proposal
as `Failed` (burning its deposit) and then fails. -/
theorem C4_error_atomicity_amended (s : GovState) (op : GovOp) (e : OracleError) :
    (runOp s op).1 = Except.error e →
    (runOp s op).2.1 = s ∨
    ∃ now pid voter v p, op = GovOp.voteOnProposal now pid voter v ∧
      alookup s.proposals pid = some p ∧ p.status = ProposalStatus.Active ∧
      p.voting_ends ≤ now ∧
      (runOp s op).2.1 = (finalise_expired_proposal s p).1 := by
  cases op with
  | depositStake a amt =>
    simp only [runOp]
    unfold deposit_stake
    split
    · intro h
      exact Or.inl rfl
    · intro h
      simp [Except.map] at h
  | withdrawStake a amt =>
    simp only [runOp]
    unfold withdraw_stake
    split
    · intro h
      exact Or.inl rfl
    · intro h
      simp [Except.map] at h
  | createProposal now proposer ptype d payload =>
    simp only [runOp]
    unfold create_proposal
    split
    · intro h
      exact Or.inl rfl
    · intro h
      simp [Except.map] at h
  | voteOnProposal now pid voter v =>
    simp only [runOp]
    unfold vote_on_proposal
    rcases hp : alookup s.proposals pid with _ | p
    · intro h
      exact Or.inl rfl
    simp only
    split
    next hne =>
      intro h
      exact Or.inl rfl
    next hA =>
      push_neg at hA
      split
      next hexp =>
        intro h
        right
        exact ⟨now, pid, voter, v, p, rfl, hp, hA, hexp, rfl⟩
      next hexp =>
        split
        · intro h
          exact Or.inl rfl
        split
        · intro h
          exact Or.inl rfl
        split
        · intro h
          simp [Except.map] at h
        · intro h
          simp [Except.map] at h
  | finaliseProposal now pid =>
    simp only [runOp]
    unfold finalise_proposal
    rcases hp : alookup s.proposals pid with _ | p
    · intro h
      exact Or.inl rfl
    simp only
    split
    · intro h
      simp [Except.map] at h
    split
    · intro h
      simp [Except.map] at h
    split
    · intro h
      simp [Except.map] at h
    · intro h
      simp [Except.map] at h
  | retryExecution now pid =>
    simp only [runOp]
    unfold retry_execution
    rcases hp : alookup s.proposals pid with _ | p
    · intro h
      exact Or.inl rfl
    simp only
    split
    · intro h
      exact Or.inl rfl
    · intro h
      simp [Except.map] at h
  | cancelProposal admin pid =>
    simp only [runOp]
    unfold cancel_proposal
    rcases s.gov_admin with _ | stored
    · intro h
      exact Or.inl rfl
    simp only
    split
    · intro h
      exact Or.inl rfl
    rcases hp : alookup s.proposals pid with _ | p
    · intro h
      exact Or.inl rfl
    simp only
    split
    · intro h
      exact Or.inl rfl
    · intro h
      simp [Except.map] at h
  | initAdmin admin =>
    simp only [runOp]
    unfold init_admin
    rcases s.gov_admin with _ | stored
    · intro h
      simp [Except.map] at h
    · intro h
      exact Or.inl rfl

/-- Witness for C4 at a concrete failing call: withdrawing from an empty
ledger fails and leaves the state unchanged. -/
theorem C4_error_atomicity_amended_witness :
    (runOp initState (GovOp.withdrawStake 0 5)).2.1 = initState ∨
    ∃ now pid voter v p,
      GovOp.withdrawStake 0 5 = GovOp.voteOnProposal now pid voter v ∧
      alookup initState.proposals pid = some p ∧ p.status = ProposalStatus.Active ∧
      p.voting_ends ≤ now ∧
      (runOp initState (GovOp.withdrawStake 0 5)).2.1 =
        (finalise_expired_proposal initState p).1 := by
  exact C4_error_atomicity_amended initState (GovOp.withdrawStake 0 5)
    OracleError.InvalidPrice (by decide)

/-- C5: over every sequence of public operations, the deposit of every
stored proposal is accounted exactly once — a proposal that ends `Executed`
or `Cancelled` has exactly one deposit-return and no burn recorded in the
event trace, a proposal that ends `Failed` has exactly one burn and no
return, and a proposal still `Active` or `ExecutionFailed` has neither
(the return and burn counters are tied one-to-one to the stake credit in
`execute_proposal` / `cancel_proposal` and to `finalise_expired_proposal`
respectively). -/
theorem C5_deposit_accounted_once (ops : List GovOp) (id : Nat) (p : OracleProposal)
    (hp : alookup (run ops).1.proposals id = some p) :
    ((p.status = ProposalStatus.Executed ∨ p.status = ProposalStatus.Cancelled) →
      ret_count id (run ops).2 = 1 ∧ burn_count id (run ops).2 = 0) ∧
    (p.status = ProposalStatus.Failed →
      ret_count id (run ops).2 = 0 ∧ burn_count id (run ops).2 = 1) ∧
    ((p.status = ProposalStatus.Active ∨ p.status = ProposalStatus.ExecutionFailed) →
      ret_count id (run ops).2 = 0 ∧ burn_count id (run ops).2 = 0) := by
  have h := depInv_run ops id
  rw [hp] at h
  simp only [dep_ok] at h
  refine ⟨?_, ?_, ?_⟩
  · intro hst
    rcases hst with hst | hst <;> · rw [hst] at h; exact h
  · intro hst
    rw [hst] at h
    exact h
  · intro hst
    rcases hst with hst | hst <;> · rw [hst] at h; exact h

def opsC5 : List GovOp :=
  [GovOp.depositStake 0 (2 * PROPOSAL_DEPOSIT),
   GovOp.createProposal 0 0 ProposalType.EmergencyPause descr_ex [],
   GovOp.voteOnProposal 0 1 0 true]

/-- The proposal stored after `opsC5`: the single vote crossed quorum and
the emergency threshold, `exec_emergency_pause` succeeded, the deposit was
returned. -/
def propC5 : OracleProposal :=
  { id := 1, proposer := 0, proposal_type := ProposalType.EmergencyPause,
    description := descr_ex, votes_for := PROPOSAL_DEPOSIT, votes_against := 0,
    voting_ends := EMERGENCY_VOTING_PERIOD_SECONDS, status := ProposalStatus.Executed,
    execution_payload := [], deposit := PROPOSAL_DEPOSIT }

/-- Witness for C5 on a concrete run reaching `Executed`. -/
theorem C5_deposit_accounted_once_witness :
    ret_count 1 (run opsC5).2 = 1 ∧ burn_count 1 (run opsC5).2 = 0 := by
  exact (C5_deposit_accounted_once opsC5 1 propC5 (by decide)).1 (Or.inl (by decide))

def opsC7 : List GovOp :=
  [GovOp.depositStake 0 (2 * PROPOSAL_DEPOSIT),
   GovOp.createProposal 0 0 ProposalType.EmergencyPause descr_ex [],
   GovOp.voteOnProposal 0 1 0 true]

/-- Counterexample to C7 as stated: after `opsC7` the voter has already
voted on proposal 1, yet the second `vote_on_proposal` call from the same
address fails with `InvalidPrice` (the not-`Active` error — the proposal was
eagerly executed), not with the `AlreadyVoted`-class `OracleAlreadyExists`
error the claim promises for every second vote. -/
theorem C7_counterexample :
    has_voted_in (run opsC7).1 1 0 = true ∧
    (vote_on_proposal 0 (run opsC7).1 1 0 false).1 =
      Except.error OracleError.InvalidPrice ∧
    OracleError.InvalidPrice ≠ OracleError.OracleAlreadyExists := by
  decide

/-- C7 (amended): at most one ballot is ever recorded per
`(proposal_id, voter)` pair; once the ballot marker is set, every further
`vote_on_proposal` call from that voter on that proposal fails and leaves
every proposal's tallies unchanged, and it fails with the
`AlreadyVoted`-class error (`OracleAlreadyExists`) precisely when the
proposal exists, is still `Active`, and its voting window is open: a vote on
an unknown proposal id fails with `OracleNotFound`, a vote on a proposal
that is no longer `Active` fails with the not-active `InvalidPrice` error,
and a vote on an `Active` proposal whose window has closed fails with the
expired `InvalidPrice` error after lazily saving the proposal as
`Failed`. -/
theorem C7_single_ballot_amended :
    (∀ ops pid voter, vote_count pid voter (run ops).2 ≤ 1) ∧
    (∀ now (s : GovState) pid voter v,
      (∀ x ∈ s.proposals, x.2.id = x.1) →
      has_voted_in s pid voter = true →
      (∃ e, (vote_on_proposal now s pid voter v).1 = Except.error e) ∧
      (∀ j, (alookup (vote_on_proposal now s pid voter v).2.1.proposals j).map
          (fun q => (q.votes_for, q.votes_against)) =
        (alookup s.proposals j).map (fun q => (q.votes_for, q.votes_against))) ∧
      (alookup s.proposals pid = none →
        vote_on_proposal now s pid voter v =
          (Except.error OracleError.OracleNotFound, s, [])) ∧
      (∀ p, alookup s.proposals pid = some p →
        (p.status ≠ ProposalStatus.Active →
          vote_on_proposal now s pid voter v =
            (Except.error OracleError.InvalidPrice, s, [])) ∧
        (p.status = ProposalStatus.Active → p.voting_ends ≤ now →
          vote_on_proposal now s pid voter v =
            (Except.error OracleError.InvalidPrice, (finalise_expired_proposal s p).1,
             (finalise_expired_proposal s p).2.2)))) ∧
    (∀ now (s : GovState) pid voter v p,
      alookup s.proposals pid = some p →
      p.status = ProposalStatus.Active → now < p.voting_ends →
      has_voted_in s pid voter = true →
      vote_on_proposal now s pid voter v =
        (Except.error OracleError.OracleAlreadyExists, s, [])) := by
  refine ⟨?_, ?_, ?_⟩
  · intro ops pid voter
    have h := voteInv_run ops pid voter
    rw [h]
    split <;> omega
  · intro now s pid voter v hkey hvoted
    unfold vote_on_proposal
    rcases hp : alookup s.proposals pid with _ | p
    · refine ⟨⟨OracleError.OracleNotFound, rfl⟩, fun j => rfl, fun _ => rfl, ?_⟩
      intro p hp2
      exact absurd hp2 (by simp)
    · have hpid : p.id = pid := hkey (pid, p) (alookup_mem _ _ _ hp)
      simp only
      split
      next hne =>
        refine ⟨⟨OracleError.InvalidPrice, rfl⟩, fun j => rfl, ?_, ?_⟩
        · intro hc
          exact absurd hc (by simp)
        · intro q hq
          have hqe : q = p := (Option.some.inj hq).symm
          subst hqe
          refine ⟨fun _ => rfl, ?_⟩
          intro hA _
          exact absurd hA hne
      next hA =>
        push_neg at hA
        split
        next hexp =>
          refine ⟨⟨OracleError.InvalidPrice, rfl⟩, ?_, ?_, ?_⟩
          · intro j
            show (alookup (finalise_expired_proposal s p).1.proposals j).map _ = _
            unfold finalise_expired_proposal
            simp only
            rw [alookup_aset]
            by_cases hj : j = p.id
            · subst hj
              rw [if_pos rfl, hpid, hp]
              rfl
            · rw [if_neg hj]
          · intro hc
            exact absurd hc (by simp)
          · intro q hq
            have hqe : q = p := (Option.some.inj hq).symm
            subst hqe
            exact ⟨fun hne => absurd hA hne, fun _ _ => rfl⟩
        next hexp =>
          simp only [hvoted, if_true]
          refine ⟨⟨OracleError.OracleAlreadyExists, rfl⟩, fun j => trivial, ?_, ?_⟩
          · intro hc
            exact absurd hc (by simp)
          · intro q hq
            have hqe : q = p := (Option.some.inj hq).symm
            subst hqe
            refine ⟨fun hne => absurd hA hne, ?_⟩
            intro _ hexp2
            exact absurd hexp2 hexp
  · intro now s pid voter v p hp hA hlt hvoted
    unfold vote_on_proposal
    rw [hp]
    simp only
    rw [if_neg (by simp [hA]), if_neg (by omega), if_pos hvoted]

def opsC7w : List GovOp :=
  [GovOp.depositStake 0 (2 * PROPOSAL_DEPOSIT),
   GovOp.createProposal 0 0 ProposalType.AddOracle descr_ex [],
   GovOp.voteOnProposal 0 1 0 false]

/-- The proposal stored after `opsC7w`: still `Active`, the single vote was
against, the voter's ballot marker is set. -/
def propC7w : OracleProposal :=
  { id := 1, proposer := 0, proposal_type := ProposalType.AddOracle,
    description := descr_ex, votes_for := 0, votes_against := PROPOSAL_DEPOSIT,
    voting_ends := VOTING_PERIOD_SECONDS, status := ProposalStatus.Active,
    execution_payload := [], deposit := PROPOSAL_DEPOSIT }

/-- Witness for C7 at a concrete second vote inside the open window. -/
theorem C7_single_ballot_amended_witness :
    vote_on_proposal 0 (run opsC7w).1 1 0 true =
      (Except.error OracleError.OracleAlreadyExists, (run opsC7w).1, []) := by
  exact C7_single_ballot_amended.2.2 0 (run opsC7w).1 1 0 true propC7w
    (by decide) (by decide) (by decide) (by decide)

/-- C9: `finalise_proposal` on an existing proposal returns the current
status without any state change when the proposal is not `Active` or the
window is still open; when it is `Active` and expired it executes the
proposal if quorum and approval both hold against the current total stake
(the returned status is `Executed` or `ExecutionFailed`), and otherwise
marks it `Failed`, burning the deposit (no stake balance is credited). -/
theorem C9_finalise_behaviour (now : Nat) (s : GovState) (pid : Nat)
    (p : OracleProposal) (hp : alookup s.proposals pid = some p) :
    (p.status ≠ ProposalStatus.Active →
      finalise_proposal now s pid = (Except.ok p.status, s, [])) ∧
    (p.status = ProposalStatus.Active → now < p.voting_ends →
      finalise_proposal now s pid = (Except.ok p.status, s, [])) ∧
    (p.status = ProposalStatus.Active → p.voting_ends ≤ now →
      (is_quorum_reached p s.total_staked && is_approved p) = true →
      finalise_proposal now s pid =
        (Except.ok (execute_proposal now s p).2.1.status, (execute_proposal now s p).1,
         (execute_proposal now s p).2.2) ∧
      ((execute_proposal now s p).2.1.status = ProposalStatus.Executed ∨
       (execute_proposal now s p).2.1.status = ProposalStatus.ExecutionFailed)) ∧
    (p.status = ProposalStatus.Active → p.voting_ends ≤ now →
      (is_quorum_reached p s.total_staked && is_approved p) = false →
      finalise_proposal now s pid =
        (Except.ok ProposalStatus.Failed,
         { s with proposals := aset s.proposals p.id { p with status := ProposalStatus.Failed } },
         [GovEvent.depositResolved p.proposer p.deposit false,
          GovEvent.failed p.id reason_expired]) ∧
      (finalise_proposal now s pid).2.1.stakes = s.stakes ∧
      (finalise_proposal now s pid).2.1.total_staked = s.total_staked) := by
  refine ⟨?_, ?_, ?_, ?_⟩
  · intro hst
    unfold finalise_proposal
    rw [hp]
    simp only
    rw [if_pos hst]
  · intro hst hlt
    unfold finalise_proposal
    rw [hp]
    simp only
    rw [if_neg (by simp [hst]), if_pos hlt]
  · intro hst hexp hq
    unfold finalise_proposal
    rw [hp]
    simp only
    rw [if_neg (by simp [hst]), if_neg (by omega), if_pos hq]
    exact ⟨rfl, execute_status_cases now s p⟩
  · intro hst hexp hq
    unfold finalise_proposal
    rw [hp]
    simp only
    rw [if_neg (by simp [hst]), if_neg (by omega), if_neg (by simp [hq])]
    refine ⟨rfl, rfl, rfl⟩

def opsC9 : List GovOp :=
  [GovOp.initAdmin 9,
   GovOp.depositStake 0 (2 * PROPOSAL_DEPOSIT),
   GovOp.createProposal 0 0 ProposalType.AddOracle descr_ex [],
   GovOp.cancelProposal 9 1]

def stateC9 : GovState := (run opsC9).1

/-- The cancelled proposal stored after `opsC9`. -/
def propC9 : OracleProposal :=
  { id := 1, proposer := 0, proposal_type := ProposalType.AddOracle,
    description := descr_ex, votes_for := 0, votes_against := 0,
    voting_ends := VOTING_PERIOD_SECONDS, status := ProposalStatus.Cancelled,
    execution_payload := [], deposit := PROPOSAL_DEPOSIT }

/-- Witness for C9: finalising a `Cancelled` proposal is a pure no-op
returning its current status. -/
theorem C9_finalise_behaviour_witness :
    finalise_proposal 0 stateC9 1 = (Except.ok ProposalStatus.Cancelled, stateC9, []) := by
  exact (C9_finalise_behaviour 0 stateC9 1 propC9 (by decide)).1 (by decide)
